import Mathlib

/-!
Verification of the bill-history date/status extraction logic of the
legi_scrape repository (Iowa / Illinois / Ohio legislative scrapers).

The development shallowly embeds, straight from the Python sources:

* the text utilities and regular-expression predicates of
  `scrapeiowa5.py` and `date_tester.py` (the patterns `INTRO_RE`,
  `PASSED_H`, `PASSED_S`, `SIGNED_GOV`, `WITHDRAWN`, `EFFECTIVE`,
  `SPONSORS`, `YMD_IN_HREF`, `YMD_IN_PATH`, `DATE_PATS`), modelled as
  executable scanners over character lists with Python `re.search`
  semantics (leftmost match, alternatives in order, ASCII
  case-insensitive where the source passes `re.I`);
* the HTML-variant classifier `parse_bill_history_fields` of
  `scrapeiowa5.py` (main row loop, fallback second pass, cosponsor
  finalisation, pending derivation);
* the Playwright-variant classifier `parse_dates_with_playwright` of
  `date_tester.py` (collect-all-introduced-then-earliest logic with its
  `mdy_key` sort key);
* the Illinois helpers `parse_actions_for_dates` and
  `collect_cosponsors_from_actions` of
  `phase2_enrichment_scrape_illinois.py`;
* the Ohio status loop of `get_bill_status` in
  `ohio/ohio_scraper_good.py`.

All inputs are modelled as the already-text-extracted table rows the
Python code iterates over (the surrounding HTML/DOM plumbing is outside
the classifier). Strings are treated as ASCII, matching the data the
scrapers handle.
-/

namespace LegiScrape

/-! ## Character and string utilities -/

/-- Python whitespace class (ASCII part), as matched by the `\s` escape
and by `str.strip` for the strings these scrapers handle. -/
def pyIsSpace (c : Char) : Bool :=
  c = ' ' ∨ c = '\t' ∨ c = '\n' ∨ c = '\r' ∨ c = '\x0b' ∨ c = '\x0c'

/-- Python word-character class (ASCII part), as used by the `\b`
boundary assertion: letters, digits and underscore. -/
def isWordChar (c : Char) : Bool :=
  c.isAlphanum ∨ c = '_'

/-- Collapse every whitespace run to a single space
(`re.sub(r"\s+", " ", s)` on ASCII input). -/
def squashWS : List Char → List Char
  | [] => []
  | [c] => if pyIsSpace c then [' '] else [c]
  | c :: d :: rest =>
    if pyIsSpace c ∧ pyIsSpace d then squashWS (d :: rest)
    else (if pyIsSpace c then ' ' else c) :: squashWS (d :: rest)

/-- Remove leading and trailing whitespace. -/
def trimWS (s : List Char) : List Char :=
  ((s.dropWhile pyIsSpace).reverse.dropWhile pyIsSpace).reverse

/-- Model of `clean` of `scrapeiowa5.py` / `date_tester.py` /
`phase2_enrichment_scrape_illinois.py`: collapse whitespace runs to a
single space, then strip. -/
def clean (s : String) : String :=
  String.mk (trimWS (squashWS s.toList))

/-- Python `str.strip()`. -/
def pyStrip (s : String) : String :=
  String.mk (trimWS s.toList)

/-- Literal prefix test on character lists (used for Python
`str.startswith`). -/
def hasLead : List Char → List Char → Bool
  | [], _ => true
  | _ :: _, [] => false
  | p :: ps, c :: cs => p = c ∧ hasLead ps cs

/-- Python `str.upper()` restricted to ASCII. -/
def pyUpper (s : String) : String :=
  String.mk (s.toList.map Char.toUpper)

/-! ## Anchored matchers and search drivers

Each Python regex used by the scrapers is modelled by an anchored
matcher (attempt a match at the head of the character list, returning
the remainder, a capture, or a boolean) together with a search driver
that tries every start position from the left, tracking the previous
character so that the `\b` word-boundary assertion can be decided. -/

/-- Case-insensitive literal match at the head of the input.  The
pattern is given in lowercase; input characters are lowered before
comparison (the sources compile these regexes with `re.I`). -/
def litCI : List Char → List Char → Option (List Char)
  | [], s => some s
  | _ :: _, [] => none
  | p :: ps, c :: cs => if c.toLower = p then litCI ps cs else none

/-- Case-sensitive literal match at the head of the input (Python `in`
containment and case-sensitive regexes). -/
def litCS : List Char → List Char → Option (List Char)
  | [], s => some s
  | _ :: _, [] => none
  | p :: ps, c :: cs => if c = p then litCS ps cs else none

/-- One or more whitespace characters (`\s+`), consumed greedily. -/
def ws1 : List Char → Option (List Char)
  | [] => none
  | c :: cs => if pyIsSpace c then some (cs.dropWhile pyIsSpace) else none

/-- The `\b` assertion to the left of a word character: start of string
or a preceding non-word character. -/
def prevOk : Option Char → Bool
  | none => true
  | some c => ¬ isWordChar c

/-- The `\b` assertion to the right of a word character: end of string
or a following non-word character. -/
def notWordNext : List Char → Bool
  | [] => true
  | c :: _ => ¬ isWordChar c

/-- Search driver for boolean matchers: try every start position from
the left, threading the previous character. -/
def searchB (p : Option Char → List Char → Bool) : Option Char → List Char → Bool
  | prev, [] => p prev []
  | prev, c :: cs => p prev (c :: cs) || searchB p (some c) cs

/-- Search driver for capturing matchers: leftmost successful match
wins, as with `re.search`. -/
def searchO {α : Type} (p : Option Char → List Char → Option α) :
    Option Char → List Char → Option α
  | prev, [] => p prev []
  | prev, c :: cs =>
    match p prev (c :: cs) with
    | some r => some r
    | none => searchO p (some c) cs

/-- Case-sensitive substring containment, Python `needle in s`. -/
def containsStr (needle : String) (s : String) : Bool :=
  searchB (fun _ t => (litCS needle.toList t).isSome) none s.toList

/-- Case-insensitive substring containment, used for Python
`needle in s.lower()` with a lowercase needle. -/
def containsCI (needle : String) (s : String) : Bool :=
  searchB (fun _ t => (litCI needle.toList t).isSome) none s.toList

/-! ## The status regexes of scrapeiowa5.py and date_tester.py -/

/-- A whole word at the current position:
boundary, case-insensitive literal, boundary. -/
def wordHere (w : String) (prev : Option Char) (s : List Char) : Bool :=
  prevOk prev &&
    match litCI w.toList s with
    | some r => notWordNext r
    | none => false

/-- Model of `INTRO_RE`: word `Introduced`, case-insensitive. -/
def introMatch (s : String) : Bool :=
  searchB (wordHere "introduced") none s.toList

/-- Model of `PASSED_H` and `PASSED_S` share the shape
word `Passed`, whitespace run, chamber word. -/
def passedChamberHere (chamber : String) (prev : Option Char) (s : List Char) : Bool :=
  prevOk prev &&
    match litCI "passed".toList s with
    | some r1 =>
      match ws1 r1 with
      | some r2 =>
        match litCI chamber.toList r2 with
        | some r3 => notWordNext r3
        | none => false
      | none => false
    | none => false

/-- Model of `PASSED_H`. -/
def passedHouseMatch (s : String) : Bool :=
  searchB (passedChamberHere "house") none s.toList

/-- Model of `PASSED_S`. -/
def passedSenateMatch (s : String) : Bool :=
  searchB (passedChamberHere "senate") none s.toList

/-- Model of `SIGNED_GOV`: word `Signed` or `Approved`, whitespace, `by`,
whitespace, `Governor`. -/
def signedGovHere (prev : Option Char) (s : List Char) : Bool :=
  prevOk prev &&
    match (match litCI "signed".toList s with
           | some r => some r
           | none => litCI "approved".toList s) with
    | some r1 =>
      match ws1 r1 with
      | some r2 =>
        match litCI "by".toList r2 with
        | some r3 =>
          match ws1 r3 with
          | some r4 =>
            match litCI "governor".toList r4 with
            | some r5 => notWordNext r5
            | none => false
          | none => false
        | none => false
      | none => false
    | none => false

/-- Model of `SIGNED_GOV`. -/
def signedGovMatch (s : String) : Bool :=
  searchB signedGovHere none s.toList

/-- Model of `EFFECTIVE`: first alternative word `Effective` + space + `date` or
`on`, second alternative the bare word `Effective`. -/
def effectiveHere (prev : Option Char) (s : List Char) : Bool :=
  prevOk prev &&
    ((match litCI "effective ".toList s with
      | some r =>
        (match litCI "date".toList r with
         | some r2 => notWordNext r2
         | none => false) ||
        (match litCI "on".toList r with
         | some r2 => notWordNext r2
         | none => false)
      | none => false) ||
     (match litCI "effective".toList s with
      | some r => notWordNext r
      | none => false))

/-- Model of `EFFECTIVE`. -/
def effectiveMatch (s : String) : Bool :=
  searchB effectiveHere none s.toList

/-- Model of `WITHDRAWN` at one position, with the captured group of the
`Died in (House|Senate)` alternative.  The alternatives are tried in
the order they appear in the pattern; the chamber group is returned
already title-cased, as the caller applies `.title()` to it. -/
def withdrawnHere (prev : Option Char) (s : List Char) : Option (Option String) :=
  if prevOk prev then
    match litCI "withdrawn".toList s with
    | some r => if notWordNext r then some none else withdrawnAlt2 s
    | none => withdrawnAlt2 s
  else none
where
  withdrawnAlt2 (s : List Char) : Option (Option String) :=
    match litCI "died in ".toList s with
    | some r =>
      (match litCI "house".toList r with
       | some r2 => if notWordNext r2 then some (some "House") else withdrawnAlt2b s
       | none => withdrawnAlt2b s)
    | none => withdrawnAlt2b s
  withdrawnAlt2b (s : List Char) : Option (Option String) :=
    match litCI "died in ".toList s with
    | some r =>
      (match litCI "senate".toList r with
       | some r2 => if notWordNext r2 then some (some "Senate") else withdrawnAlt3 s
       | none => withdrawnAlt3 s)
    | none => withdrawnAlt3 s
  withdrawnAlt3 (s : List Char) : Option (Option String) :=
    match litCI "failed".toList s with
    | some r => if notWordNext r then some none else none
    | none => none

/-- Model of `WITHDRAWN` search: leftmost match, with the optional chamber
group. -/
def withdrawnSearch (s : String) : Option (Option String) :=
  searchO withdrawnHere none s.toList

/-- Tail of the `SPONSORS` pattern after the literal `added`:
an optional comma, optional whitespace, then a non-empty greedy
capture, with the backtracking a regex engine performs when the
greedy pieces leave nothing for the capture. -/
def sponsorsCapTail (r : List Char) : Option (List Char) :=
  let r1 := match r with
            | ',' :: rest => rest
            | _ => r
  let r2 := r1.dropWhile pyIsSpace
  if r2 ≠ [] then some r2
  else if r1 ≠ [] then some [' ']
  else if r ≠ [] then some r
  else none

/-- Model of `SPONSORS` at one position: word boundary, `Sponsor`, optional `s`,
whitespace, `added`, then the captured name list. -/
def sponsorsHere (prev : Option Char) (s : List Char) : Option (List Char) :=
  if prevOk prev then
    match litCI "sponsor".toList s with
    | some r1 =>
      let afterS := match r1 with
                    | c :: rest => if c.toLower = 's' then ws1 rest else ws1 r1
                    | [] => none
      match afterS with
      | some r2 =>
        match litCI "added".toList r2 with
        | some r3 => sponsorsCapTail r3
        | none => none
      | none => none
    | none => none
  else none

/-- Model of `SPONSORS` search; the result is group 1 (the raw name list). -/
def sponsorsCapture (s : String) : Option String :=
  (searchO sponsorsHere none s.toList).map String.mk

/-! ## Date helpers -/

/-- Exact run of `n` ASCII digits. -/
def takeDigits : Nat → List Char → Option (List Char × List Char)
  | 0, s => some ([], s)
  | _ + 1, [] => none
  | n + 1, c :: cs =>
    if c.isDigit then
      match takeDigits n cs with
      | some (ds, rest) => some (c :: ds, rest)
      | none => none
    else none

/-- Numeric value of a digit run. -/
def digitsVal (ds : List Char) : Nat :=
  ds.foldl (fun acc c => 10 * acc + (c.toNat - '0'.toNat)) 0

/-- Model of `_ymd_to_mdy`: `yyyymmdd` to `M/D/YYYY`; month and day go through
`int()` so leading zeros are dropped, the year is kept verbatim. -/
def ymdToMdy (ymd : List Char) : String :=
  toString (digitsVal (ymd.drop 4 |>.take 2)) ++ "/" ++
    toString (digitsVal (ymd.drop 6 |>.take 2)) ++ "/" ++
    String.mk (ymd.take 4)

/-- Model of `YMD_IN_HREF` at one position: `?` or `&`, then `hdate`, `date` or
`actionDate` (case-insensitive, in pattern order), `=`, then exactly
eight digits, captured. -/
def ymdInHrefHere (_ : Option Char) (s : List Char) : Option (List Char) :=
  match s with
  | c :: rest =>
    if c = '?' ∨ c = '&' then
      let afterName :=
        match litCI "hdate".toList rest with
        | some r => some r
        | none =>
          match litCI "date".toList rest with
          | some r => some r
          | none => litCI "actiondate".toList rest
      match afterName with
      | some r1 =>
        match r1 with
        | '=' :: r2 => (takeDigits 8 r2).map Prod.fst
        | _ => none
      | none => none
    else none
  | [] => none

/-- Model of `YMD_IN_PATH` at one position: `/`, a journal token (`HJNL`,
`SJNL`, `HJRNL`, `SJRNL`, case-insensitive, in pattern order), `/`,
then exactly eight digits, captured. -/
def ymdInPathHere (_ : Option Char) (s : List Char) : Option (List Char) :=
  match s with
  | '/' :: rest =>
    let afterName :=
      match litCI "hjnl".toList rest with
      | some r => some r
      | none =>
        match litCI "sjnl".toList rest with
        | some r => some r
        | none =>
          match litCI "hjrnl".toList rest with
          | some r => some r
          | none => litCI "sjrnl".toList rest
    match afterName with
    | some r1 =>
      match r1 with
      | '/' :: r2 => (takeDigits 8 r2).map Prod.fst
      | _ => none
    | none => none
  | _ => none

/-- Model of `_date_from_href_str` of `date_tester.py` (also the per-anchor part
of `_date_from_links` of `scrapeiowa5.py`): `YMD_IN_HREF` first, then
`YMD_IN_PATH`, converted with `_ymd_to_mdy`. -/
def dateFromHref (href : String) : Option String :=
  match searchO ymdInHrefHere none href.toList with
  | some ymd => some (ymdToMdy ymd)
  | none =>
    match searchO ymdInPathHere none href.toList with
    | some ymd => some (ymdToMdy ymd)
    | none => none

/-- Model of `_date_from_links`: try every anchor of the row in order. -/
def dateFromLinks : List String → Option String
  | [] => none
  | h :: hs =>
    match dateFromHref h with
    | some d => some d
    | none => dateFromLinks hs

/-- One or two digits followed by a given delimiter, greedy with
backtracking (`\d` one-or-two then a literal), returning the digit run
and the remainder after the delimiter. -/
def digits12Then (delim : Char) (s : List Char) : Option (List Char × List Char) :=
  match s with
  | a :: b :: rest =>
    if a.isDigit then
      if b.isDigit then
        match rest with
        | c :: rest2 => if c = delim then some ([a, b], rest2) else none
        | [] => none
      else if b = delim then some ([a], rest) else none
    else none
  | [_] => none
  | [] => none

/-- First `DATE_PATS` pattern at one position: boundary, a letter run,
space, one or two digits, comma, space, four digits, boundary
(`Month DD, YYYY`); the capture is the matched text. -/
def datePat1Here (prev : Option Char) (s : List Char) : Option (List Char) :=
  if prevOk prev then
    let letters := s.takeWhile Char.isAlpha
    let rest := s.dropWhile Char.isAlpha
    if letters ≠ [] then
      match rest with
      | ' ' :: r1 =>
        match digits12Then ',' r1 with
        | some (ds, r2) =>
          (match r2 with
           | ' ' :: r3 =>
             match takeDigits 4 r3 with
             | some (ys, r4) =>
               if notWordNext r4 then
                 some (letters ++ [' '] ++ ds ++ [',', ' '] ++ ys)
               else none
             | none => none
           | _ => none)
        | none => none
      | _ => none
    else none
  else none

/-- Second `DATE_PATS` pattern at one position: boundary, one or two
digits, `/`, one or two digits, `/`, four digits, boundary
(`MM/DD/YYYY`); the capture is the matched text. -/
def datePat2Here (prev : Option Char) (s : List Char) : Option (List Char) :=
  if prevOk prev then
    match digits12Then '/' s with
    | some (ms, r1) =>
      match digits12Then '/' r1 with
      | some (ds, r2) =>
        (match takeDigits 4 r2 with
         | some (ys, r3) =>
           if notWordNext r3 then some (ms ++ ['/'] ++ ds ++ ['/'] ++ ys)
           else none
         | none => none)
      | none => none
    | none => none
  else none

/-- The `DATE_PATS` loop: search the whole text with the first pattern,
then with the second. -/
def firstDateLiteral (s : String) : Option String :=
  match searchO datePat1Here none s.toList with
  | some m => some (String.mk m)
  | none => (searchO datePat2Here none s.toList).map String.mk

/-! ## The Iowa HTML classifier (`parse_bill_history_fields`) -/

/-- Model of `infer_chamber_from_billno` of `scrapeiowa5.py` (identical in
`date_tester.py`): uppercase the bill number, then match the fixed
tuple of chamber leads. -/
def infer_chamber_from_billno (billno : String) : String :=
  let bn := (pyUpper billno).toList
  if ["HF", "HSB", "HR", "HCR", "HCJ"].any (fun p => hasLead p.toList bn) then "House"
  else if ["SF", "SSB", "SR", "SCR", "SCJ"].any (fun p => hasLead p.toList bn) then "Senate"
  else ""

/-- One `tr` of the `div.billAction` history table, after the text
extraction the Python loop performs: the cleaned first-cell text, the
cleaned action-cell text (whole-row text when the row has a single
cell), the `href` attributes of the anchors of the row, and the cleaned
whole-row text used by the literal-date fallback. -/
structure HistRow where
  dateCell : String
  action : String
  hrefs : List String
  rowText : String
deriving Repr, DecidableEq

/-- The `out` dictionary of `parse_bill_history_fields`, one field per
CSV key it populates. -/
structure Status where
  introducedYN : String
  introducedDate : String
  chamberIntroduced : String
  effectiveYN : String
  effectiveDate : String
  passedIntroYN : String
  passedIntroDate : String
  passedSecondYN : String
  passedSecondDate : String
  pendingYN : String
  deadYN : String
  chamberDied : String
  deadDate : String
  enactedYN : String
  actIdentifier : String
  enactedDate : String
  cosponsor : String
deriving Repr, DecidableEq

/-- All-empty record, as initialised at the top of
`parse_bill_history_fields`. -/
def initStatus : Status :=
  ⟨"", "", "", "", "", "", "", "", "", "", "", "", "", "", "", "", ""⟩

/-- The date used for a row of the main loop: the first-cell text if
non-empty, else a date recovered from the row's hyperlinks, else a
literal date in the whole-row text, else empty. -/
def effDate (r : HistRow) : String :=
  if r.dateCell ≠ "" then r.dateCell
  else
    match dateFromLinks r.hrefs with
    | some d => d
    | none =>
      match firstDateLiteral r.rowText with
      | some l => l
      | none => ""

/-- The `Introduced` block of the loop body. -/
def introStep (date a : String) (st : Status) : Status :=
  if introMatch a = true ∧ st.introducedDate = "" then
    { st with introducedYN := "Y", introducedDate := date }
  else st

/-- The `Passed House` block: origin bucket when the bill is a House
bill and that bucket is unset, else the second-chamber bucket when that
one is unset. -/
def passedHStep (origin date a : String) (st : Status) : Status :=
  if passedHouseMatch a = true then
    if origin = "House" ∧ st.passedIntroDate = "" then
      { st with passedIntroYN := "Y", passedIntroDate := date }
    else if st.passedSecondDate = "" then
      { st with passedSecondYN := "Y", passedSecondDate := date }
    else st
  else st

/-- The `Passed Senate` block, symmetric to `passedHStep`. -/
def passedSStep (origin date a : String) (st : Status) : Status :=
  if passedSenateMatch a = true then
    if origin = "Senate" ∧ st.passedIntroDate = "" then
      { st with passedIntroYN := "Y", passedIntroDate := date }
    else if st.passedSecondDate = "" then
      { st with passedSecondYN := "Y", passedSecondDate := date }
    else st
  else st

/-- The `Enacted (Signed/Approved)` block. -/
def enactedStep (date a : String) (st : Status) : Status :=
  if signedGovMatch a = true ∧ st.enactedDate = "" then
    { st with enactedYN := "Y", enactedDate := date }
  else st

/-- The `Effective` block. -/
def effectiveStep (date a : String) (st : Status) : Status :=
  if effectiveMatch a = true ∧ st.effectiveDate = "" then
    { st with effectiveYN := "Y", effectiveDate := date }
  else st

/-- Split at every `;` or `,`, keeping empty pieces, as `re.split`
does. -/
def splitSemiComma : List Char → List (List Char)
  | [] => [[]]
  | c :: rest =>
    if c = ';' ∨ c = ',' then [] :: splitSemiComma rest
    else
      match splitSemiComma rest with
      | [] => [[c]]
      | g :: gs => (c :: g) :: gs

/-- The names contributed by one action text: the `SPONSORS` capture
split on semicolons and commas, cleaned, empties dropped. -/
def sponsorNamesOf (a : String) : List String :=
  match sponsorsCapture a with
  | some g1 => ((splitSemiComma g1.toList).map (fun l => clean (String.mk l))).filter (· ≠ "")
  | none => []

/-- All sponsor names contributed by a row list, in scan order. -/
def allSponsorNames : List HistRow → List String
  | [] => []
  | r :: rs => sponsorNamesOf r.action ++ allSponsorNames rs

/-- The `Dead/Withdrawn/Failed` block: guarded by the `Dead (Y/N)`
flag; the died-in chamber comes from the match group when present,
else from the given fallback chamber. -/
def deadStep (fb date a : String) (st : Status) : Status :=
  match withdrawnSearch a with
  | some g =>
    if st.deadYN = "" then
      { st with deadYN := "Y", deadDate := date,
                chamberDied := match g with | some ch => ch | none => fb }
    else st
  | none => st

/-- One iteration of the main (`div.billAction`) loop of
`parse_bill_history_fields`: the blocks run in source order on the
status record, and the row's sponsor names are appended to the running
cosponsor list.  `origin` is the `introduced_chamber` local the loop
captured before starting. -/
def processRow (origin : String) (st : Status × List String) (r : HistRow) :
    Status × List String :=
  let date := effDate r
  let a := r.action
  let s1 := introStep date a st.1
  let s2 := passedHStep origin date a s1
  let s3 := passedSStep origin date a s2
  let s4 := enactedStep date a s3
  let s5 := effectiveStep date a s4
  let s6 := deadStep origin date a s5
  (s6, st.2 ++ sponsorNamesOf a)

/-- The date used by the fallback (`rows`) loop: the date cell, or a
literal date in the action text (no node is available there, so no
hyperlink recovery). -/
def pairDate (p : String × String) : String :=
  if p.1 ≠ "" then p.1
  else match firstDateLiteral p.2 with
       | some l => l
       | none => ""

/-- One iteration of the fallback (`rows`) loop; the chamber
comparisons read the `Chamber where introduced` field of the
record. -/
def processPair (st : Status × List String) (p : String × String) :
    Status × List String :=
  let ch := st.1.chamberIntroduced
  let date := pairDate p
  let a := p.2
  let s1 := introStep date a st.1
  let s2 := passedHStep ch date a s1
  let s3 := passedSStep ch date a s2
  let s4 := enactedStep date a s3
  let s5 := effectiveStep date a s4
  let s6 := deadStep ch date a s5
  (s6, st.2 ++ sponsorNamesOf a)

/-- First-seen-order de-duplication with a seen set, as the Python
`seen, uniq` idiom. -/
def dedupAux (seen : List String) : List String → List String
  | [] => []
  | x :: xs =>
    if x ∈ seen then dedupAux seen xs
    else x :: dedupAux (x :: seen) xs

/-- De-duplicate preserving first-seen order. -/
def dedupFirst (l : List String) : List String :=
  dedupAux [] l

/-- The initial scan state of `parse_bill_history_fields`: the record
with `Chamber where introduced` filled from the bill number, and the
empty cosponsor list. -/
def initPair (origin : String) : Status × List String :=
  ({ initStatus with chamberIntroduced := origin }, [])

/-- The trigger of the fallback pass: no introduced date, or none of
the five other date fields set. -/
def fallbackCond (s : Status) : Prop :=
  s.introducedDate = "" ∨
    (s.passedIntroDate = "" ∧ s.passedSecondDate = "" ∧
     s.enactedDate = "" ∧ s.effectiveDate = "" ∧ s.deadDate = "")

instance (s : Status) : Decidable (fallbackCond s) := by
  unfold fallbackCond; infer_instance

/-- Cosponsor finalisation: when any names were collected, the field
becomes the comma join of the first-seen de-duplication. -/
def finalizeCos (p : Status × List String) : Status :=
  if p.2.isEmpty then p.1
  else { p.1 with cosponsor := String.intercalate ", " (dedupFirst p.2) }

/-- Pending derivation: pending exactly when neither enacted nor
dead. -/
def finalizePending (s : Status) : Status :=
  if s.enactedYN ≠ "Y" ∧ s.deadYN ≠ "Y" then { s with pendingYN := "Y" }
  else { s with pendingYN := "N" }

/-- Model of `parse_bill_history_fields` of `scrapeiowa5.py`, on the rows of the
`div.billAction` table (the `rows` list the code builds from the same
rows is their date/action projection).  With no rows at all the record
is returned immediately with `Pending (Y/N) = "Y"`. -/
def parse_bill_history_fields (rows : List HistRow) (billno : String) : Status :=
  let origin := infer_chamber_from_billno billno
  if rows.isEmpty then
    { initStatus with chamberIntroduced := origin, pendingYN := "Y" }
  else
    let p1 := rows.foldl (processRow origin) (initPair origin)
    let p2 :=
      if fallbackCond p1.1 then
        (rows.map (fun r => (r.dateCell, r.action))).foldl processPair p1
      else p1
    finalizePending (finalizeCos p2)

/-! ## The Playwright classifier (`parse_dates_with_playwright` of
date_tester.py) -/

/-- One history-table row as the Playwright loop reads it: stripped
first-cell text, stripped action-cell text, and the row's anchor
`href` attributes. -/
structure PWRow where
  dateCell : String
  action : String
  hrefs : List String
deriving Repr, DecidableEq

/-- The date for a Playwright row: the first cell if non-empty, else a
hyperlink date, else a literal date in the action text. -/
def pwEffDate (r : PWRow) : String :=
  if r.dateCell ≠ "" then r.dateCell
  else
    match dateFromLinks r.hrefs with
    | some d => d
    | none =>
      match firstDateLiteral r.action with
      | some l => l
      | none => ""

/-- The loop state of `parse_dates_with_playwright`. -/
structure PWState where
  introDates : List String
  passedIntro : String
  passedSecond : String
  effective : String
  dead : String
  enactedFlag : String
  enactedDate : String
deriving Repr, DecidableEq

def initPWState : PWState := ⟨[], "", "", "", "", "", ""⟩

/-- The `Introduced` collection statement of the Playwright loop:
substring test on the lowered action, non-empty date only. -/
def pwIntroStep (date a : String) (st : PWState) : PWState :=
  if containsCI "introduced" a = true ∧ date ≠ "" then
    { st with introDates := st.introDates ++ [date] }
  else st

/-- The `Passed House` statement of the Playwright loop. -/
def pwPassedHStep (origin date a : String) (st : PWState) : PWState :=
  if passedHouseMatch a = true then
    if origin = "House" ∧ st.passedIntro = "" then { st with passedIntro := date }
    else if st.passedSecond = "" then { st with passedSecond := date }
    else st
  else st

/-- The `Passed Senate` statement of the Playwright loop. -/
def pwPassedSStep (origin date a : String) (st : PWState) : PWState :=
  if passedSenateMatch a = true then
    if origin = "Senate" ∧ st.passedIntro = "" then { st with passedIntro := date }
    else if st.passedSecond = "" then { st with passedSecond := date }
    else st
  else st

/-- The `Effective` statement of the Playwright loop. -/
def pwEffectiveStep (date a : String) (st : PWState) : PWState :=
  if effectiveMatch a = true ∧ st.effective = "" then { st with effective := date }
  else st

/-- The `Signed by Governor` statement of the Playwright loop. -/
def pwEnactedStep (date a : String) (st : PWState) : PWState :=
  if signedGovMatch a = true ∧ st.enactedDate = "" then
    { st with enactedFlag := "Y", enactedDate := date }
  else st

/-- The `Withdrawn` statement of the Playwright loop; unlike the HTML
variant this one is guarded by the dead date itself. -/
def pwDeadStep (date a : String) (st : PWState) : PWState :=
  if (withdrawnSearch a).isSome = true ∧ st.dead = "" then { st with dead := date }
  else st

/-- One iteration of the Playwright row loop, the six statements in
source order. -/
def pwStep (origin : String) (st : PWState) (r : PWRow) : PWState :=
  let date := pwEffDate r
  let a := r.action
  pwDeadStep date a (pwEnactedStep date a (pwEffectiveStep date a
    (pwPassedSStep origin date a (pwPassedHStep origin date a
      (pwIntroStep date a st)))))

/-- Split at every `/`, keeping empty pieces (Python `str.split`). -/
def splitSlash : List Char → List (List Char)
  | [] => [[]]
  | c :: rest =>
    if c = '/' then [] :: splitSlash rest
    else
      match splitSlash rest with
      | [] => [[c]]
      | g :: gs => (c :: g) :: gs

/-- Python `int(s)` on a string: optional surrounding whitespace, an
optional sign, then at least one digit; anything else raises (here:
`none`). -/
def pyIntOpt (s : List Char) : Option Int :=
  let t := trimWS s
  match t with
  | '+' :: ds => (digitsNat ds).map Int.ofNat
  | '-' :: ds => (digitsNat ds).map (fun n => -(n : Int))
  | ds => (digitsNat ds).map Int.ofNat
where
  digitsNat (ds : List Char) : Option Nat :=
    if ds ≠ [] ∧ ds.all Char.isDigit then some (digitsVal ds) else none

/-- The successful branch of `mdy_key`: split on `/` into exactly
three `int()`-parsable parts, keyed `(year, month, day)`. -/
def mdy_keyOpt (d : String) : Option (Int × Int × Int) :=
  match splitSlash d.toList with
  | [ms, ds, ys] =>
    match pyIntOpt ms, pyIntOpt ds, pyIntOpt ys with
    | some m, some dd, some y => some (y, m, dd)
    | _, _, _ => none
  | _ => none

/-- Model of `mdy_key` of `parse_dates_with_playwright`: the parsed
`(year, month, day)` key, or the sentinel `(9999, 12, 31)` when the
string is not of the slash form. -/
def mdy_key (d : String) : Int × Int × Int :=
  (mdy_keyOpt d).getD (9999, 12, 31)

/-- Lexicographic order on sort keys, as Python compares int
triples. -/
def keyLE (a b : Int × Int × Int) : Bool :=
  decide (a.1 < b.1 ∨ (a.1 = b.1 ∧ (a.2.1 < b.2.1 ∨ (a.2.1 = b.2.1 ∧ a.2.2 ≤ b.2.2))))

/-- Strict lexicographic order on sort keys. -/
def keyLT (a b : Int × Int × Int) : Bool :=
  decide (a.1 < b.1 ∨ (a.1 = b.1 ∧ (a.2.1 < b.2.1 ∨ (a.2.1 = b.2.1 ∧ a.2.2 < b.2.2))))

/-- Stable insertion by `mdy_key`: the new element, which occurs later
in the original list, goes after every element with a strictly smaller
key and before equal keys, matching `list.sort(key=mdy_key)`. -/
def insortKey (x : String) : List String → List String
  | [] => [x]
  | y :: ys => if keyLT (mdy_key y) (mdy_key x) = true then y :: insortKey x ys
               else x :: y :: ys

/-- Stable sort by `mdy_key`. -/
def sortByKey : List String → List String
  | [] => []
  | x :: xs => insortKey x (sortByKey xs)

/-- The output record of `parse_dates_with_playwright`. -/
structure PWOut where
  introducedDate : String
  effectiveDate : String
  passedIntroDate : String
  passedSecondDate : String
  deadDate : String
  enactedYN : String
  enactedDate : String
deriving Repr, DecidableEq

/-- Model of `parse_dates_with_playwright` of `date_tester.py`, on the rows of
the history table: single forward scan, then the collected
`Introduced` dates are filtered, sorted by `mdy_key` and the first one
is taken. -/
def parse_dates_with_playwright (rows : List PWRow) (billno : String) : PWOut :=
  let origin := infer_chamber_from_billno billno
  let fin := rows.foldl (pwStep origin) initPWState
  let introducedDate :=
    if fin.introDates.isEmpty then ""
    else
      match sortByKey (fin.introDates.filter (· ≠ "")) with
      | [] => ""
      | d :: _ => d
  ⟨introducedDate, fin.effective, fin.passedIntro, fin.passedSecond,
    fin.dead, fin.enactedFlag, fin.enactedDate⟩

/-- The dates the scan collects for the `Introduced` rule: every row
whose lowered action contains `introduced` and whose recovered date is
non-empty, in document order. -/
def introDatesOf (rows : List PWRow) : List String :=
  rows.filterMap fun r =>
    if containsCI "introduced" r.action = true ∧ pwEffDate r ≠ "" then some (pwEffDate r)
    else none

/-! ## The Illinois helpers (phase2_enrichment_scrape_illinois.py) -/

/-- Model of `ACTION_ROW_RE` applied with `.match`: optional leading
whitespace, a slash date (one-or-two digits, slash, one-or-two digits,
slash, four digits), whitespace, a word-character run (the chamber),
whitespace, and the rest of the line (the action). -/
def ilParseRow (line : String) : Option (String × String × String) :=
  let s := line.toList.dropWhile pyIsSpace
  match digits12Then '/' s with
  | some (ms, r1) =>
    (match digits12Then '/' r1 with
     | some (ds, r2) =>
       match takeDigits 4 r2 with
       | some (ys, r3) =>
         (match ws1 r3 with
          | some r4 =>
            let chamber := r4.takeWhile isWordChar
            let r5 := r4.dropWhile isWordChar
            if chamber ≠ [] then
              match ws1 r5 with
              | some r6 =>
                some (String.mk (ms ++ ['/'] ++ ds ++ ['/'] ++ ys),
                      String.mk chamber, String.mk r6)
              | none => none
            else none
          | none => none)
       | none => none
     | none => none)
  | none => none

/-- The tag list of the dead-date rule of `parse_actions_for_dates`. -/
def ilDeadTags : List String :=
  ["Session Sine Die", "Re-referred to Rules Committee", "Rule 19(a)", "Rule 3-9(a)",
   "Vetoed", "Amendatory Veto Overridden - Fail"]

/-- The result record of `parse_actions_for_dates`. -/
structure IlStatus where
  introducedDate : String
  passedFirst : String
  passedSecond : String
  effectiveDate : String
  enactedDate : String
  deadDate : String
deriving Repr, DecidableEq

/-- One line of `parse_actions_for_dates`: lines that do not match
`ACTION_ROW_RE` are skipped; all field updates are guarded by
emptiness except the dead-date rule, which overwrites. -/
def ilStep (origin other : String) (st : IlStatus) (line : String) : IlStatus :=
  match ilParseRow line with
  | none => st
  | some (date, chamber, action) =>
    let st :=
      if st.introducedDate = "" ∧
          (containsStr "Filed with Secretary" action = true ∨
           (containsStr "First Reading" action = true ∧ chamber = origin)) then
        { st with introducedDate := date }
      else st
    let st :=
      if st.passedFirst = "" ∧ containsStr "Third Reading" action = true ∧
          containsStr "Passed" action = true ∧ chamber = origin then
        { st with passedFirst := date }
      else st
    let st :=
      if st.passedSecond = "" ∧ containsStr "Third Reading" action = true ∧
          containsStr "Passed" action = true ∧ chamber = other then
        { st with passedSecond := date }
      else st
    let st :=
      if containsStr "Governor Approved" action = true ∧ st.enactedDate = "" then
        { st with enactedDate := date }
      else st
    let st :=
      if containsStr "Effective Date" action = true ∧ st.effectiveDate = "" then
        { st with effectiveDate := date }
      else st
    if ilDeadTags.any (fun tag => containsStr tag action) = true then
      { st with deadDate := date }
    else st

/-- Model of `parse_actions_for_dates` of
`phase2_enrichment_scrape_illinois.py`. -/
def parse_actions_for_dates (lines : List String) (origin : String) : IlStatus :=
  let other := if origin = "House" then "Senate" else "House"
  lines.foldl (ilStep origin other) ⟨"", "", "", "", "", ""⟩

/-- The anchored core of the cosponsor substitution pattern:
`Added as `, optional `Chief `, `Co-Sponsor`, then a whitespace run;
returns the remainder after the whitespace. -/
def coSponsorHere (s : List Char) : Option (List Char) :=
  match litCS "Added as ".toList s with
  | some r =>
    let afterChief :=
      match litCS "Chief ".toList r with
      | some r2 =>
        (match litCS "Co-Sponsor".toList r2 with
         | some r3 => some r3
         | none => litCS "Co-Sponsor".toList r)
      | none => litCS "Co-Sponsor".toList r
    match afterChief with
    | some r3 => ws1 r3
    | none => none
  | none => none

/-- The greedy `.*` prefix of the substitution pattern anchors the
replacement to the last viable occurrence; this returns the remainder
after that occurrence, or the whole line when the pattern never
matches (as `re.sub` leaves non-matching input unchanged). -/
def afterLastCoSponsor (s : List Char) : List Char :=
  match go s with
  | some r => r
  | none => s
where
  go : List Char → Option (List Char)
    | [] => none
    | c :: rest =>
      match go rest with
      | some r => some r
      | none => coSponsorHere (c :: rest)

/-- Model of `re.sub(r"\s*;.*$", "", nm)`: cut everything from the first
semicolon, with the whitespace immediately before it. -/
def stripSemiTail (s : List Char) : List Char :=
  if ';' ∈ s then (s.takeWhile (· ≠ ';')).reverse.dropWhile pyIsSpace |>.reverse
  else s

/-- Model of `re.sub(r"\s*\[[^\]]+\]\s*$", "", nm)`: remove a trailing
bracketed group together with the whitespace around it, when the line
ends with one. -/
def stripBracketTail (s : List Char) : List Char :=
  let r := s.reverse.dropWhile pyIsSpace
  match r with
  | ']' :: r2 =>
    let innerRev := r2.takeWhile (· ≠ '[')
    let rest := r2.dropWhile (· ≠ '[')
    if innerRev ≠ [] ∧ ']' ∉ innerRev then
      match rest with
      | '[' :: r3 => (r3.dropWhile pyIsSpace).reverse
      | _ => s
    else s
  | _ => s

/-- Model of `collect_cosponsors_from_actions` of
`phase2_enrichment_scrape_illinois.py`: lines containing the
co-sponsor phrases contribute the text after the phrase, truncated at
the first semicolon and stripped of a trailing bracket group; the
names are de-duplicated in first-seen order and joined with
semicolons. -/
def collect_cosponsors_from_actions (lines : List String) : String :=
  let names := lines.filterMap fun line =>
    if containsStr "Added as Co-Sponsor" line = true ∨
        containsStr "Added as Chief Co-Sponsor" line = true then
      let nm := pyStrip (String.mk (stripBracketTail (stripSemiTail
        (afterLastCoSponsor line.toList))))
      if nm ≠ "" then some nm else none
    else none
  String.intercalate "; " (dedupFirst names)

/-! ## The Ohio status loop (`get_bill_status` of
ohio/ohio_scraper_good.py) -/

/-- The result dictionary of `get_bill_status`. -/
structure OhStatus where
  introducedDate : String
  effectiveDate : String
  passedFirst : String
  passedSecond : String
  deadDate : String
  enacted : String
  enactedDate : String
deriving Repr, DecidableEq

/-- Model of `status_info` as initialised by `get_bill_status`. -/
def ohioInit : OhStatus := ⟨"", "", "", "", "", "N", ""⟩

/-- Python `str.lower()` restricted to ASCII. -/
def pyLower (s : String) : String :=
  String.mk (s.toList.map Char.toLower)

/-- The `elif` chain of the Ohio status loop on one
`(date, chamber, action)` row: introduced, effective and enacted are
set unconditionally; the passage buckets and the dead date only when
still unset. -/
def ohioStep (orig second : String) (st : OhStatus) (row : String × String × String) :
    OhStatus :=
  let date := row.1
  let chamber := row.2.1
  let low := pyLower row.2.2
  if containsStr "introduced" low = true then { st with introducedDate := date }
  else if containsStr "effective" low = true then { st with effectiveDate := date }
  else if containsStr "signed by the governor" low = true then
    { st with enacted := "Y", enactedDate := date }
  else if containsStr "passed" low = true ∧ chamber ≠ "" then
    if chamber = orig then
      (if st.passedFirst = "" then { st with passedFirst := date } else st)
    else if chamber = second then
      (if st.passedSecond = "" then { st with passedSecond := date } else st)
    else st
  else if ["withdrawn", "died", "failed", "rejected", "vetoed"].any
      (fun w => containsStr w low) = true then
    (if st.deadDate = "" then { st with deadDate := date } else st)
  else st

/-- The row loop of `get_bill_status`, with the originating chamber
derived from the bill type as in the source. -/
def ohio_bill_status (rows : List (String × String × String)) (billType : String) :
    OhStatus :=
  let orig := if billType = "SB" then "Senate" else "House"
  let second := if billType = "SB" then "House" else "Senate"
  rows.foldl (ohioStep orig second) ohioInit

/-! ## Auxiliary notions and concrete inputs used by the claims -/

/-- A row none of whose date-recovery rules produces a date: blank
date cell, no hyperlink date, no literal date in the row text and none
in the action text (the fallback pass scans the action). -/
def unrecoverable (r : HistRow) : Bool :=
  decide (r.dateCell = "") && (dateFromLinks r.hrefs).isNone &&
    (firstDateLiteral r.rowText).isNone && (firstDateLiteral r.action).isNone

/-- The chamber leads the Iowa scripts recognise. -/
def recognizedLead (billno : String) : Bool :=
  ["HF", "HSB", "HR", "HCR", "HCJ", "SF", "SSB", "SR", "SCR", "SCJ"].any
    (fun p => hasLead p.toList (pyUpper billno).toList)

/-- Modelled from the spec, for comparison with the Illinois code: the
cosponsor names the specification describes, namely the text captured
after the co-sponsor phrase, split on semicolons and commas,
de-duplicated preserving first-seen order. -/
def spec_cosponsor_names (lines : List String) : List String :=
  dedupFirst (lines.foldr (fun line acc =>
    (if containsStr "Added as Co-Sponsor" line = true ∨
        containsStr "Added as Chief Co-Sponsor" line = true then
      ((splitSemiComma (afterLastCoSponsor line.toList)).map
        (fun l => clean (String.mk l))).filter (· ≠ "")
    else []) ++ acc) [])

/-- Two `Introduced` rows dated out of calendar order, the example of
the claim about the earliest-introduced rule. -/
def c1Row1 : PWRow := ⟨"3/1/2023", "Introduced, referred to State Government.", []⟩

/-- Second example row for the earliest-introduced rule. -/
def c1Row2 : PWRow := ⟨"1/15/2023", "Introduced, referred to Judiciary.", []⟩

/-- A row signed by the Governor, the enacted example of the pending
claim. -/
def c3Row1 : HistRow :=
  ⟨"5/1/2023", "Signed by Governor", [], "5/1/2023 Signed by Governor"⟩

/-- A withdrawn row, the dead example of the pending claim. -/
def c3Row2 : HistRow := ⟨"4/1/2023", "Withdrawn", [], "4/1/2023 Withdrawn"⟩

/-- A first `Passed House` row for a House bill. -/
def c5Row1 : HistRow :=
  ⟨"2/1/2023", "Passed House, 80-10", [], "2/1/2023 Passed House, 80-10"⟩

/-- A second `Passed House` row for the same House bill. -/
def c5Row2 : HistRow :=
  ⟨"2/5/2023", "Passed House on reconsideration", [],
    "2/5/2023 Passed House on reconsideration"⟩

/-- A row with a blank date cell whose anchor carries the date as an
`hdate` query parameter. -/
def c6Row : HistRow :=
  ⟨"", "Introduced, referred to Judiciary.",
    ["/legislation/journals/index?hdate=20230415"],
    "Introduced, referred to Judiciary. H.J. 152."⟩

/-- An `Introduced` row with no recoverable date at all. -/
def c7Row : HistRow := ⟨"", "Introduced, referred to Ways and Means.", [],
  "Introduced, referred to Ways and Means."⟩

/-- A row prefix that sets all five guarded fields of a House bill. -/
def c2Xs : List HistRow :=
  [⟨"1/5/2023", "Passed House, 60-40", [], "1/5/2023 Passed House, 60-40"⟩,
   ⟨"1/6/2023", "Passed Senate, 30-20", [], "1/6/2023 Passed Senate, 30-20"⟩,
   ⟨"1/7/2023", "Signed by Governor, effective date July 1", [],
     "1/7/2023 Signed by Governor, effective date July 1"⟩,
   ⟨"1/8/2023", "Withdrawn", [], "1/8/2023 Withdrawn"⟩]

/-- A later row matching every predicate of the five guarded fields. -/
def c2Ys : List HistRow :=
  [⟨"2/1/2023", "Passed House and Passed Senate; Signed by Governor; effective date; Withdrawn",
    [], "2/1/2023 Passed House and Passed Senate; Signed by Governor; effective date; Withdrawn"⟩]

/-- First Illinois veto line of the first-match-wins counterexample. -/
def c2Line1 : String := "1/1/2024 House Vetoed by Governor"

/-- Second Illinois veto line of the first-match-wins
counterexample. -/
def c2Line2 : String := "2/1/2024 House Vetoed"

/-- An Illinois co-sponsor line naming two legislators separated by a
semicolon. -/
def c8Line : String := "Added as Co-Sponsor Rep. Ann Doe; Rep. Bob Roe"

/-- An Iowa sponsors-added row naming two legislators. -/
def c8Row : HistRow :=
  ⟨"1/9/2023", "Sponsors added, Smith; Jones", [], "1/9/2023 Sponsors added, Smith; Jones"⟩

/-- Rows of the slash-form-priority example: a month-name date and a
later slash date, both on `Introduced` rows. -/
def c9Row1 : PWRow := ⟨"April 15, 2023", "Introduced.", []⟩

/-- Second row of the slash-form-priority example. -/
def c9Row2 : PWRow := ⟨"6/1/2023", "Introduced, referred.", []⟩

/-! ## Frame lemmas: fields each loop block leaves unchanged -/

@[simp] theorem introStep_keeps_chamberIntroduced (d a : String) (st : Status) :
    (introStep d a st).chamberIntroduced = st.chamberIntroduced :=
  by unfold introStep; split_ifs <;> rfl

@[simp] theorem introStep_keeps_passedIntroYN (d a : String) (st : Status) :
    (introStep d a st).passedIntroYN = st.passedIntroYN :=
  by unfold introStep; split_ifs <;> rfl

@[simp] theorem introStep_keeps_passedIntroDate (d a : String) (st : Status) :
    (introStep d a st).passedIntroDate = st.passedIntroDate :=
  by unfold introStep; split_ifs <;> rfl

@[simp] theorem introStep_keeps_passedSecondYN (d a : String) (st : Status) :
    (introStep d a st).passedSecondYN = st.passedSecondYN :=
  by unfold introStep; split_ifs <;> rfl

@[simp] theorem introStep_keeps_passedSecondDate (d a : String) (st : Status) :
    (introStep d a st).passedSecondDate = st.passedSecondDate :=
  by unfold introStep; split_ifs <;> rfl

@[simp] theorem introStep_keeps_effectiveYN (d a : String) (st : Status) :
    (introStep d a st).effectiveYN = st.effectiveYN :=
  by unfold introStep; split_ifs <;> rfl

@[simp] theorem introStep_keeps_effectiveDate (d a : String) (st : Status) :
    (introStep d a st).effectiveDate = st.effectiveDate :=
  by unfold introStep; split_ifs <;> rfl

@[simp] theorem introStep_keeps_enactedYN (d a : String) (st : Status) :
    (introStep d a st).enactedYN = st.enactedYN :=
  by unfold introStep; split_ifs <;> rfl

@[simp] theorem introStep_keeps_enactedDate (d a : String) (st : Status) :
    (introStep d a st).enactedDate = st.enactedDate :=
  by unfold introStep; split_ifs <;> rfl

@[simp] theorem introStep_keeps_deadYN (d a : String) (st : Status) :
    (introStep d a st).deadYN = st.deadYN :=
  by unfold introStep; split_ifs <;> rfl

@[simp] theorem introStep_keeps_deadDate (d a : String) (st : Status) :
    (introStep d a st).deadDate = st.deadDate :=
  by unfold introStep; split_ifs <;> rfl

@[simp] theorem introStep_keeps_chamberDied (d a : String) (st : Status) :
    (introStep d a st).chamberDied = st.chamberDied :=
  by unfold introStep; split_ifs <;> rfl

@[simp] theorem introStep_keeps_cosponsor (d a : String) (st : Status) :
    (introStep d a st).cosponsor = st.cosponsor :=
  by unfold introStep; split_ifs <;> rfl

@[simp] theorem passedHStep_keeps_introducedYN (o d a : String) (st : Status) :
    (passedHStep o d a st).introducedYN = st.introducedYN :=
  by unfold passedHStep; split_ifs <;> rfl

@[simp] theorem passedHStep_keeps_introducedDate (o d a : String) (st : Status) :
    (passedHStep o d a st).introducedDate = st.introducedDate :=
  by unfold passedHStep; split_ifs <;> rfl

@[simp] theorem passedHStep_keeps_chamberIntroduced (o d a : String) (st : Status) :
    (passedHStep o d a st).chamberIntroduced = st.chamberIntroduced :=
  by unfold passedHStep; split_ifs <;> rfl

@[simp] theorem passedHStep_keeps_effectiveYN (o d a : String) (st : Status) :
    (passedHStep o d a st).effectiveYN = st.effectiveYN :=
  by unfold passedHStep; split_ifs <;> rfl

@[simp] theorem passedHStep_keeps_effectiveDate (o d a : String) (st : Status) :
    (passedHStep o d a st).effectiveDate = st.effectiveDate :=
  by unfold passedHStep; split_ifs <;> rfl

@[simp] theorem passedHStep_keeps_enactedYN (o d a : String) (st : Status) :
    (passedHStep o d a st).enactedYN = st.enactedYN :=
  by unfold passedHStep; split_ifs <;> rfl

@[simp] theorem passedHStep_keeps_enactedDate (o d a : String) (st : Status) :
    (passedHStep o d a st).enactedDate = st.enactedDate :=
  by unfold passedHStep; split_ifs <;> rfl

@[simp] theorem passedHStep_keeps_deadYN (o d a : String) (st : Status) :
    (passedHStep o d a st).deadYN = st.deadYN :=
  by unfold passedHStep; split_ifs <;> rfl

@[simp] theorem passedHStep_keeps_deadDate (o d a : String) (st : Status) :
    (passedHStep o d a st).deadDate = st.deadDate :=
  by unfold passedHStep; split_ifs <;> rfl

@[simp] theorem passedHStep_keeps_chamberDied (o d a : String) (st : Status) :
    (passedHStep o d a st).chamberDied = st.chamberDied :=
  by unfold passedHStep; split_ifs <;> rfl

@[simp] theorem passedHStep_keeps_cosponsor (o d a : String) (st : Status) :
    (passedHStep o d a st).cosponsor = st.cosponsor :=
  by unfold passedHStep; split_ifs <;> rfl

@[simp] theorem passedSStep_keeps_introducedYN (o d a : String) (st : Status) :
    (passedSStep o d a st).introducedYN = st.introducedYN :=
  by unfold passedSStep; split_ifs <;> rfl

@[simp] theorem passedSStep_keeps_introducedDate (o d a : String) (st : Status) :
    (passedSStep o d a st).introducedDate = st.introducedDate :=
  by unfold passedSStep; split_ifs <;> rfl

@[simp] theorem passedSStep_keeps_chamberIntroduced (o d a : String) (st : Status) :
    (passedSStep o d a st).chamberIntroduced = st.chamberIntroduced :=
  by unfold passedSStep; split_ifs <;> rfl

@[simp] theorem passedSStep_keeps_effectiveYN (o d a : String) (st : Status) :
    (passedSStep o d a st).effectiveYN = st.effectiveYN :=
  by unfold passedSStep; split_ifs <;> rfl

@[simp] theorem passedSStep_keeps_effectiveDate (o d a : String) (st : Status) :
    (passedSStep o d a st).effectiveDate = st.effectiveDate :=
  by unfold passedSStep; split_ifs <;> rfl

@[simp] theorem passedSStep_keeps_enactedYN (o d a : String) (st : Status) :
    (passedSStep o d a st).enactedYN = st.enactedYN :=
  by unfold passedSStep; split_ifs <;> rfl

@[simp] theorem passedSStep_keeps_enactedDate (o d a : String) (st : Status) :
    (passedSStep o d a st).enactedDate = st.enactedDate :=
  by unfold passedSStep; split_ifs <;> rfl

@[simp] theorem passedSStep_keeps_deadYN (o d a : String) (st : Status) :
    (passedSStep o d a st).deadYN = st.deadYN :=
  by unfold passedSStep; split_ifs <;> rfl

@[simp] theorem passedSStep_keeps_deadDate (o d a : String) (st : Status) :
    (passedSStep o d a st).deadDate = st.deadDate :=
  by unfold passedSStep; split_ifs <;> rfl

@[simp] theorem passedSStep_keeps_chamberDied (o d a : String) (st : Status) :
    (passedSStep o d a st).chamberDied = st.chamberDied :=
  by unfold passedSStep; split_ifs <;> rfl

@[simp] theorem passedSStep_keeps_cosponsor (o d a : String) (st : Status) :
    (passedSStep o d a st).cosponsor = st.cosponsor :=
  by unfold passedSStep; split_ifs <;> rfl

@[simp] theorem enactedStep_keeps_introducedYN (d a : String) (st : Status) :
    (enactedStep d a st).introducedYN = st.introducedYN :=
  by unfold enactedStep; split_ifs <;> rfl

@[simp] theorem enactedStep_keeps_introducedDate (d a : String) (st : Status) :
    (enactedStep d a st).introducedDate = st.introducedDate :=
  by unfold enactedStep; split_ifs <;> rfl

@[simp] theorem enactedStep_keeps_chamberIntroduced (d a : String) (st : Status) :
    (enactedStep d a st).chamberIntroduced = st.chamberIntroduced :=
  by unfold enactedStep; split_ifs <;> rfl

@[simp] theorem enactedStep_keeps_passedIntroYN (d a : String) (st : Status) :
    (enactedStep d a st).passedIntroYN = st.passedIntroYN :=
  by unfold enactedStep; split_ifs <;> rfl

@[simp] theorem enactedStep_keeps_passedIntroDate (d a : String) (st : Status) :
    (enactedStep d a st).passedIntroDate = st.passedIntroDate :=
  by unfold enactedStep; split_ifs <;> rfl

@[simp] theorem enactedStep_keeps_passedSecondYN (d a : String) (st : Status) :
    (enactedStep d a st).passedSecondYN = st.passedSecondYN :=
  by unfold enactedStep; split_ifs <;> rfl

@[simp] theorem enactedStep_keeps_passedSecondDate (d a : String) (st : Status) :
    (enactedStep d a st).passedSecondDate = st.passedSecondDate :=
  by unfold enactedStep; split_ifs <;> rfl

@[simp] theorem enactedStep_keeps_effectiveYN (d a : String) (st : Status) :
    (enactedStep d a st).effectiveYN = st.effectiveYN :=
  by unfold enactedStep; split_ifs <;> rfl

@[simp] theorem enactedStep_keeps_effectiveDate (d a : String) (st : Status) :
    (enactedStep d a st).effectiveDate = st.effectiveDate :=
  by unfold enactedStep; split_ifs <;> rfl

@[simp] theorem enactedStep_keeps_deadYN (d a : String) (st : Status) :
    (enactedStep d a st).deadYN = st.deadYN :=
  by unfold enactedStep; split_ifs <;> rfl

@[simp] theorem enactedStep_keeps_deadDate (d a : String) (st : Status) :
    (enactedStep d a st).deadDate = st.deadDate :=
  by unfold enactedStep; split_ifs <;> rfl

@[simp] theorem enactedStep_keeps_chamberDied (d a : String) (st : Status) :
    (enactedStep d a st).chamberDied = st.chamberDied :=
  by unfold enactedStep; split_ifs <;> rfl

@[simp] theorem enactedStep_keeps_cosponsor (d a : String) (st : Status) :
    (enactedStep d a st).cosponsor = st.cosponsor :=
  by unfold enactedStep; split_ifs <;> rfl

@[simp] theorem effectiveStep_keeps_introducedYN (d a : String) (st : Status) :
    (effectiveStep d a st).introducedYN = st.introducedYN :=
  by unfold effectiveStep; split_ifs <;> rfl

@[simp] theorem effectiveStep_keeps_introducedDate (d a : String) (st : Status) :
    (effectiveStep d a st).introducedDate = st.introducedDate :=
  by unfold effectiveStep; split_ifs <;> rfl

@[simp] theorem effectiveStep_keeps_chamberIntroduced (d a : String) (st : Status) :
    (effectiveStep d a st).chamberIntroduced = st.chamberIntroduced :=
  by unfold effectiveStep; split_ifs <;> rfl

@[simp] theorem effectiveStep_keeps_passedIntroYN (d a : String) (st : Status) :
    (effectiveStep d a st).passedIntroYN = st.passedIntroYN :=
  by unfold effectiveStep; split_ifs <;> rfl

@[simp] theorem effectiveStep_keeps_passedIntroDate (d a : String) (st : Status) :
    (effectiveStep d a st).passedIntroDate = st.passedIntroDate :=
  by unfold effectiveStep; split_ifs <;> rfl

@[simp] theorem effectiveStep_keeps_passedSecondYN (d a : String) (st : Status) :
    (effectiveStep d a st).passedSecondYN = st.passedSecondYN :=
  by unfold effectiveStep; split_ifs <;> rfl

@[simp] theorem effectiveStep_keeps_passedSecondDate (d a : String) (st : Status) :
    (effectiveStep d a st).passedSecondDate = st.passedSecondDate :=
  by unfold effectiveStep; split_ifs <;> rfl

@[simp] theorem effectiveStep_keeps_enactedYN (d a : String) (st : Status) :
    (effectiveStep d a st).enactedYN = st.enactedYN :=
  by unfold effectiveStep; split_ifs <;> rfl

@[simp] theorem effectiveStep_keeps_enactedDate (d a : String) (st : Status) :
    (effectiveStep d a st).enactedDate = st.enactedDate :=
  by unfold effectiveStep; split_ifs <;> rfl

@[simp] theorem effectiveStep_keeps_deadYN (d a : String) (st : Status) :
    (effectiveStep d a st).deadYN = st.deadYN :=
  by unfold effectiveStep; split_ifs <;> rfl

@[simp] theorem effectiveStep_keeps_deadDate (d a : String) (st : Status) :
    (effectiveStep d a st).deadDate = st.deadDate :=
  by unfold effectiveStep; split_ifs <;> rfl

@[simp] theorem effectiveStep_keeps_chamberDied (d a : String) (st : Status) :
    (effectiveStep d a st).chamberDied = st.chamberDied :=
  by unfold effectiveStep; split_ifs <;> rfl

@[simp] theorem effectiveStep_keeps_cosponsor (d a : String) (st : Status) :
    (effectiveStep d a st).cosponsor = st.cosponsor :=
  by unfold effectiveStep; split_ifs <;> rfl

@[simp] theorem deadStep_keeps_introducedYN (fb d a : String) (st : Status) :
    (deadStep fb d a st).introducedYN = st.introducedYN :=
  by
  unfold deadStep
  split
  · split_ifs <;> rfl
  · rfl

@[simp] theorem deadStep_keeps_introducedDate (fb d a : String) (st : Status) :
    (deadStep fb d a st).introducedDate = st.introducedDate :=
  by
  unfold deadStep
  split
  · split_ifs <;> rfl
  · rfl

@[simp] theorem deadStep_keeps_chamberIntroduced (fb d a : String) (st : Status) :
    (deadStep fb d a st).chamberIntroduced = st.chamberIntroduced :=
  by
  unfold deadStep
  split
  · split_ifs <;> rfl
  · rfl

@[simp] theorem deadStep_keeps_passedIntroYN (fb d a : String) (st : Status) :
    (deadStep fb d a st).passedIntroYN = st.passedIntroYN :=
  by
  unfold deadStep
  split
  · split_ifs <;> rfl
  · rfl

@[simp] theorem deadStep_keeps_passedIntroDate (fb d a : String) (st : Status) :
    (deadStep fb d a st).passedIntroDate = st.passedIntroDate :=
  by
  unfold deadStep
  split
  · split_ifs <;> rfl
  · rfl

@[simp] theorem deadStep_keeps_passedSecondYN (fb d a : String) (st : Status) :
    (deadStep fb d a st).passedSecondYN = st.passedSecondYN :=
  by
  unfold deadStep
  split
  · split_ifs <;> rfl
  · rfl

@[simp] theorem deadStep_keeps_passedSecondDate (fb d a : String) (st : Status) :
    (deadStep fb d a st).passedSecondDate = st.passedSecondDate :=
  by
  unfold deadStep
  split
  · split_ifs <;> rfl
  · rfl

@[simp] theorem deadStep_keeps_effectiveYN (fb d a : String) (st : Status) :
    (deadStep fb d a st).effectiveYN = st.effectiveYN :=
  by
  unfold deadStep
  split
  · split_ifs <;> rfl
  · rfl

@[simp] theorem deadStep_keeps_effectiveDate (fb d a : String) (st : Status) :
    (deadStep fb d a st).effectiveDate = st.effectiveDate :=
  by
  unfold deadStep
  split
  · split_ifs <;> rfl
  · rfl

@[simp] theorem deadStep_keeps_enactedYN (fb d a : String) (st : Status) :
    (deadStep fb d a st).enactedYN = st.enactedYN :=
  by
  unfold deadStep
  split
  · split_ifs <;> rfl
  · rfl

@[simp] theorem deadStep_keeps_enactedDate (fb d a : String) (st : Status) :
    (deadStep fb d a st).enactedDate = st.enactedDate :=
  by
  unfold deadStep
  split
  · split_ifs <;> rfl
  · rfl

@[simp] theorem deadStep_keeps_cosponsor (fb d a : String) (st : Status) :
    (deadStep fb d a st).cosponsor = st.cosponsor :=
  by
  unfold deadStep
  split
  · split_ifs <;> rfl
  · rfl


/-! ## Conditional behaviour of the loop blocks -/

/-- The introduced block does nothing once the date field is
non-empty. -/
theorem introStep_unfired (d a : String) (st : Status) (h : st.introducedDate ≠ "") :
    introStep d a st = st := by
  unfold introStep; split_ifs <;> simp_all

/-- The introduced block fires on a match while the field is empty. -/
theorem introStep_fired (d a : String) (st : Status) (h1 : introMatch a = true)
    (h2 : st.introducedDate = "") :
    introStep d a st = { st with introducedYN := "Y", introducedDate := d } := by
  unfold introStep; split_ifs <;> simp_all

/-- The introduced block does nothing without a match. -/
theorem introStep_skip (d a : String) (st : Status) (h : introMatch a = false) :
    introStep d a st = st := by
  unfold introStep; split_ifs <;> simp_all

/-- The Passed House block preserves a non-empty origin bucket. -/
theorem passedHStep_keepIntro (o d a : String) (st : Status)
    (h : st.passedIntroDate ≠ "") :
    (passedHStep o d a st).passedIntroDate = st.passedIntroDate := by
  unfold passedHStep; split_ifs <;> simp_all

/-- The Passed House block preserves a non-empty second bucket. -/
theorem passedHStep_keepSecond (o d a : String) (st : Status)
    (h : st.passedSecondDate ≠ "") :
    (passedHStep o d a st).passedSecondDate = st.passedSecondDate := by
  unfold passedHStep; split_ifs <;> simp_all

/-- The Passed House block routes to the origin bucket. -/
theorem passedHStep_firedIntro (o d a : String) (st : Status)
    (h1 : passedHouseMatch a = true) (h2 : o = "House")
    (h3 : st.passedIntroDate = "") :
    passedHStep o d a st = { st with passedIntroYN := "Y", passedIntroDate := d } := by
  unfold passedHStep; split_ifs <;> simp_all

/-- The Passed House block falls through to the second bucket. -/
theorem passedHStep_firedSecond (o d a : String) (st : Status)
    (h1 : passedHouseMatch a = true) (h2 : ¬(o = "House" ∧ st.passedIntroDate = ""))
    (h3 : st.passedSecondDate = "") :
    passedHStep o d a st = { st with passedSecondYN := "Y", passedSecondDate := d } := by
  unfold passedHStep; split_ifs; all_goals simp_all

/-- The Passed House block does nothing without a match. -/
theorem passedHStep_skip (o d a : String) (st : Status)
    (h : passedHouseMatch a = false) :
    passedHStep o d a st = st := by
  unfold passedHStep; split_ifs <;> simp_all

/-- The Passed Senate block preserves a non-empty origin bucket. -/
theorem passedSStep_keepIntro (o d a : String) (st : Status)
    (h : st.passedIntroDate ≠ "") :
    (passedSStep o d a st).passedIntroDate = st.passedIntroDate := by
  unfold passedSStep; split_ifs <;> simp_all

/-- The Passed Senate block preserves a non-empty second bucket. -/
theorem passedSStep_keepSecond (o d a : String) (st : Status)
    (h : st.passedSecondDate ≠ "") :
    (passedSStep o d a st).passedSecondDate = st.passedSecondDate := by
  unfold passedSStep; split_ifs <;> simp_all

/-- The Passed Senate block routes to the origin bucket. -/
theorem passedSStep_firedIntro (o d a : String) (st : Status)
    (h1 : passedSenateMatch a = true) (h2 : o = "Senate")
    (h3 : st.passedIntroDate = "") :
    passedSStep o d a st = { st with passedIntroYN := "Y", passedIntroDate := d } := by
  unfold passedSStep; split_ifs <;> simp_all

/-- The Passed Senate block falls through to the second bucket. -/
theorem passedSStep_firedSecond (o d a : String) (st : Status)
    (h1 : passedSenateMatch a = true) (h2 : ¬(o = "Senate" ∧ st.passedIntroDate = ""))
    (h3 : st.passedSecondDate = "") :
    passedSStep o d a st = { st with passedSecondYN := "Y", passedSecondDate := d } := by
  unfold passedSStep; split_ifs; all_goals simp_all

/-- The Passed Senate block does nothing without a match. -/
theorem passedSStep_skip (o d a : String) (st : Status)
    (h : passedSenateMatch a = false) :
    passedSStep o d a st = st := by
  unfold passedSStep; split_ifs <;> simp_all

/-- The Passed Senate block never writes the origin bucket when the
origin is not `Senate` (in particular when it is empty). -/
theorem passedSStep_keepIntroOfNe (o d a : String) (st : Status)
    (h : o ≠ "Senate") :
    (passedSStep o d a st).passedIntroDate = st.passedIntroDate ∧
    (passedSStep o d a st).passedIntroYN = st.passedIntroYN := by
  unfold passedSStep; split_ifs <;> simp_all

/-- The Passed House block never writes the origin bucket when the
origin is not `House` (in particular when it is empty). -/
theorem passedHStep_keepIntroOfNe (o d a : String) (st : Status)
    (h : o ≠ "House") :
    (passedHStep o d a st).passedIntroDate = st.passedIntroDate ∧
    (passedHStep o d a st).passedIntroYN = st.passedIntroYN := by
  unfold passedHStep; split_ifs <;> simp_all

/-- The enacted block does nothing once the date is set. -/
theorem enactedStep_unfired (d a : String) (st : Status) (h : st.enactedDate ≠ "") :
    enactedStep d a st = st := by
  unfold enactedStep; split_ifs <;> simp_all

/-- The enacted block fires on a match while the date is empty. -/
theorem enactedStep_fired (d a : String) (st : Status) (h1 : signedGovMatch a = true)
    (h2 : st.enactedDate = "") :
    enactedStep d a st = { st with enactedYN := "Y", enactedDate := d } := by
  unfold enactedStep; split_ifs <;> simp_all

/-- The enacted block does nothing without a match. -/
theorem enactedStep_skip (d a : String) (st : Status) (h : signedGovMatch a = false) :
    enactedStep d a st = st := by
  unfold enactedStep; split_ifs <;> simp_all

/-- The effective block does nothing once the date is set. -/
theorem effectiveStep_unfired (d a : String) (st : Status) (h : st.effectiveDate ≠ "") :
    effectiveStep d a st = st := by
  unfold effectiveStep; split_ifs <;> simp_all

/-- The effective block fires on a match while the date is empty. -/
theorem effectiveStep_fired (d a : String) (st : Status) (h1 : effectiveMatch a = true)
    (h2 : st.effectiveDate = "") :
    effectiveStep d a st = { st with effectiveYN := "Y", effectiveDate := d } := by
  unfold effectiveStep; split_ifs <;> simp_all

/-- The effective block does nothing without a match. -/
theorem effectiveStep_skip (d a : String) (st : Status) (h : effectiveMatch a = false) :
    effectiveStep d a st = st := by
  unfold effectiveStep; split_ifs <;> simp_all

/-- The dead block does nothing once the dead flag is set. -/
theorem deadStep_unfired (fb d a : String) (st : Status) (h : st.deadYN ≠ "") :
    deadStep fb d a st = st := by
  unfold deadStep; split
  · split_ifs <;> simp_all
  · rfl

/-- The dead block fires on a match while the flag is empty. -/
theorem deadStep_fired (fb d a : String) (st : Status) (g : Option String)
    (h1 : withdrawnSearch a = some g) (h2 : st.deadYN = "") :
    deadStep fb d a st =
      { st with deadYN := "Y", deadDate := d, chamberDied := g.getD fb } := by
  simp only [deadStep, h1, h2]
  cases g <;> simp [Option.getD]

/-- The dead block does nothing without a match. -/
theorem deadStep_skip (fb d a : String) (st : Status) (h : withdrawnSearch a = none) :
    deadStep fb d a st = st := by
  unfold deadStep; split <;> simp_all

/-- The dead block never makes the dead date non-empty while leaving
the flag empty. -/
theorem deadStep_inv (fb d a : String) (st : Status)
    (h : st.deadYN = "" → st.deadDate = "") :
    (deadStep fb d a st).deadYN = "" → (deadStep fb d a st).deadDate = "" := by
  unfold deadStep; split
  · split_ifs <;> simp_all
  · exact h

/-! ## The two loop bodies as step compositions -/

/-- The main loop body is the source-ordered composition of the six
blocks, with the sponsor names appended. -/
theorem processRow_eq (o : String) (st : Status × List String) (r : HistRow) :
    processRow o st r =
      (deadStep o (effDate r) r.action
        (effectiveStep (effDate r) r.action
          (enactedStep (effDate r) r.action
            (passedSStep o (effDate r) r.action
              (passedHStep o (effDate r) r.action
                (introStep (effDate r) r.action st.1))))),
       st.2 ++ sponsorNamesOf r.action) := rfl

/-- The fallback loop body, same composition with the pair date and
the chamber field as fallback. -/
theorem processPair_eq (st : Status × List String) (p : String × String) :
    processPair st p =
      (deadStep st.1.chamberIntroduced (pairDate p) p.2
        (effectiveStep (pairDate p) p.2
          (enactedStep (pairDate p) p.2
            (passedSStep st.1.chamberIntroduced (pairDate p) p.2
              (passedHStep st.1.chamberIntroduced (pairDate p) p.2
                (introStep (pairDate p) p.2 st.1))))),
       st.2 ++ sponsorNamesOf p.2) := rfl

/-! ## Row-level behaviour of the main loop body -/

theorem processRow_chamber (o : String) (st : Status × List String) (r : HistRow) :
    (processRow o st r).1.chamberIntroduced = st.1.chamberIntroduced := by
  simp [processRow_eq]

theorem processRow_cosField (o : String) (st : Status × List String) (r : HistRow) :
    (processRow o st r).1.cosponsor = st.1.cosponsor := by
  simp [processRow_eq]

theorem processRow_keep_passedIntroDate (o : String) (st : Status × List String)
    (r : HistRow) (h : st.1.passedIntroDate ≠ "") :
    (processRow o st r).1.passedIntroDate = st.1.passedIntroDate := by
  simp only [processRow_eq]
  rw [deadStep_keeps_passedIntroDate, effectiveStep_keeps_passedIntroDate,
      enactedStep_keeps_passedIntroDate, passedSStep_keepIntro, passedHStep_keepIntro,
      introStep_keeps_passedIntroDate]
  · rw [introStep_keeps_passedIntroDate]; exact h
  · rw [passedHStep_keepIntro, introStep_keeps_passedIntroDate]
    · exact h
    · rw [introStep_keeps_passedIntroDate]; exact h

theorem processRow_keep_passedSecondDate (o : String) (st : Status × List String)
    (r : HistRow) (h : st.1.passedSecondDate ≠ "") :
    (processRow o st r).1.passedSecondDate = st.1.passedSecondDate := by
  simp only [processRow_eq]
  rw [deadStep_keeps_passedSecondDate, effectiveStep_keeps_passedSecondDate,
      enactedStep_keeps_passedSecondDate, passedSStep_keepSecond, passedHStep_keepSecond,
      introStep_keeps_passedSecondDate]
  · rw [introStep_keeps_passedSecondDate]; exact h
  · rw [passedHStep_keepSecond, introStep_keeps_passedSecondDate]
    · exact h
    · rw [introStep_keeps_passedSecondDate]; exact h

theorem processRow_keep_effectiveDate (o : String) (st : Status × List String)
    (r : HistRow) (h : st.1.effectiveDate ≠ "") :
    (processRow o st r).1.effectiveDate = st.1.effectiveDate := by
  simp only [processRow_eq]
  rw [deadStep_keeps_effectiveDate, effectiveStep_unfired]
  · simp
  · simp [h]

theorem processRow_keep_enactedDate (o : String) (st : Status × List String)
    (r : HistRow) (h : st.1.enactedDate ≠ "") :
    (processRow o st r).1.enactedDate = st.1.enactedDate := by
  simp only [processRow_eq]
  rw [deadStep_keeps_enactedDate, effectiveStep_keeps_enactedDate, enactedStep_unfired]
  · simp
  · simp [h]

theorem processRow_keep_dead (o : String) (st : Status × List String)
    (r : HistRow) (h : st.1.deadYN ≠ "") :
    (processRow o st r).1.deadYN = st.1.deadYN ∧
    (processRow o st r).1.deadDate = st.1.deadDate := by
  simp only [processRow_eq]
  rw [deadStep_unfired]
  · simp
  · simp [h]

theorem processRow_inv (o : String) (st : Status × List String) (r : HistRow)
    (h : st.1.deadYN = "" → st.1.deadDate = "") :
    (processRow o st r).1.deadYN = "" → (processRow o st r).1.deadDate = "" := by
  simp only [processRow_eq]
  intro hy
  have := deadStep_inv o (effDate r) r.action
    (effectiveStep (effDate r) r.action
      (enactedStep (effDate r) r.action
        (passedSStep o (effDate r) r.action
          (passedHStep o (effDate r) r.action
            (introStep (effDate r) r.action st.1))))) (by simpa using h) hy
  simpa using this

/-! ## Scan lemmas for the Playwright variant and its sort key -/

@[simp] theorem pwPassedHStep_keeps_introDates (o d a : String) (st : PWState) :
    (pwPassedHStep o d a st).introDates = st.introDates := by
  unfold pwPassedHStep; split_ifs <;> rfl

@[simp] theorem pwPassedSStep_keeps_introDates (o d a : String) (st : PWState) :
    (pwPassedSStep o d a st).introDates = st.introDates := by
  unfold pwPassedSStep; split_ifs <;> rfl

@[simp] theorem pwEffectiveStep_keeps_introDates (d a : String) (st : PWState) :
    (pwEffectiveStep d a st).introDates = st.introDates := by
  unfold pwEffectiveStep; split_ifs <;> rfl

@[simp] theorem pwEnactedStep_keeps_introDates (d a : String) (st : PWState) :
    (pwEnactedStep d a st).introDates = st.introDates := by
  unfold pwEnactedStep; split_ifs <;> rfl

@[simp] theorem pwDeadStep_keeps_introDates (d a : String) (st : PWState) :
    (pwDeadStep d a st).introDates = st.introDates := by
  unfold pwDeadStep; split_ifs <;> rfl

theorem pwIntroStep_introDates (d a : String) (st : PWState) :
    (pwIntroStep d a st).introDates =
      st.introDates ++ (if containsCI "introduced" a = true ∧ d ≠ "" then [d] else []) := by
  unfold pwIntroStep; split_ifs <;> simp

theorem pwStep_introDates (o : String) (st : PWState) (r : PWRow) :
    (pwStep o st r).introDates =
      st.introDates ++
        (if containsCI "introduced" r.action = true ∧ pwEffDate r ≠ "" then [pwEffDate r]
         else []) := by
  simp [pwStep, pwIntroStep_introDates]

theorem introDatesOf_cons (r : PWRow) (rs : List PWRow) :
    introDatesOf (r :: rs) =
      (if containsCI "introduced" r.action = true ∧ pwEffDate r ≠ "" then [pwEffDate r]
       else []) ++ introDatesOf rs := by
  unfold introDatesOf
  rw [List.filterMap_cons]
  split_ifs <;> simp

theorem pwScan_introDates (o : String) (rows : List PWRow) :
    ∀ st : PWState, (rows.foldl (pwStep o) st).introDates = st.introDates ++ introDatesOf rows := by
  induction rows with
  | nil => intro st; simp [introDatesOf]
  | cons r rs ih =>
    intro st
    simp only [List.foldl_cons]
    rw [ih, pwStep_introDates, introDatesOf_cons, List.append_assoc]

theorem mem_introDatesOf_ne (rows : List PWRow) (d : String)
    (h : d ∈ introDatesOf rows) : d ≠ "" := by
  unfold introDatesOf at h
  rw [List.mem_filterMap] at h
  obtain ⟨r, _, hr⟩ := h
  split_ifs at hr with hc
  cases hr
  exact hc.2

theorem keyLE_refl (a : Int × Int × Int) : keyLE a a = true := by
  rcases a with ⟨y, m, d⟩; simp [keyLE]

theorem keyLE_trans (a b c : Int × Int × Int) (h1 : keyLE a b = true)
    (h2 : keyLE b c = true) : keyLE a c = true := by
  rcases a with ⟨y1, m1, d1⟩; rcases b with ⟨y2, m2, d2⟩; rcases c with ⟨y3, m3, d3⟩
  simp [keyLE] at h1 h2 ⊢; omega

theorem keyLE_of_keyLT (a b : Int × Int × Int) (h : keyLT a b = true) :
    keyLE a b = true := by
  rcases a with ⟨y1, m1, d1⟩; rcases b with ⟨y2, m2, d2⟩
  simp [keyLE, keyLT] at h ⊢; omega

theorem keyLE_of_not_keyLT (a b : Int × Int × Int) (h : ¬ keyLT a b = true) :
    keyLE b a = true := by
  rcases a with ⟨y1, m1, d1⟩; rcases b with ⟨y2, m2, d2⟩
  simp [keyLE, keyLT] at h ⊢; omega

theorem keyLE_keyLT_trans (a b c : Int × Int × Int) (h1 : keyLE a b = true)
    (h2 : keyLT b c = true) : keyLT a c = true := by
  rcases a with ⟨y1, m1, d1⟩; rcases b with ⟨y2, m2, d2⟩; rcases c with ⟨y3, m3, d3⟩
  simp [keyLE, keyLT] at h1 h2 ⊢; omega

theorem keyLT_irrefl (a : Int × Int × Int) : keyLT a a = false := by
  rcases a with ⟨y, m, d⟩; simp [keyLT]

theorem length_insortKey (x : String) (l : List String) :
    (insortKey x l).length = l.length + 1 := by
  induction l with
  | nil => rfl
  | cons y ys ih => unfold insortKey; split_ifs <;> simp [ih]

theorem sortByKey_eq_nil (l : List String) : sortByKey l = [] ↔ l = [] := by
  cases l with
  | nil => simp [sortByKey]
  | cons x xs =>
    simp only [sortByKey]
    constructor
    · intro h
      have := length_insortKey x (sortByKey xs)
      rw [h] at this
      simp at this
    · intro h; cases h

theorem mem_insortKey (x a : String) (l : List String) :
    a ∈ insortKey x l ↔ a = x ∨ a ∈ l := by
  induction l with
  | nil => simp [insortKey]
  | cons y ys ih =>
    unfold insortKey
    split_ifs
    · simp [ih]; tauto
    · simp

theorem mem_sortByKey (a : String) (l : List String) :
    a ∈ sortByKey l ↔ a ∈ l := by
  induction l with
  | nil => simp [sortByKey]
  | cons x xs ih =>
    simp only [sortByKey]
    rw [mem_insortKey]
    simp [ih]

theorem sortByKey_head_min (l : List String) :
    ∀ x xs, sortByKey l = x :: xs → ∀ d ∈ l, keyLE (mdy_key x) (mdy_key d) = true := by
  induction l with
  | nil => intro x xs h; simp [sortByKey] at h
  | cons y ys ih =>
    intro x xs h d hd
    simp only [sortByKey] at h
    rcases hs : sortByKey ys with _ | ⟨z, zs⟩
    · have hys : ys = [] := (sortByKey_eq_nil ys).mp hs
      subst hys
      simp only [sortByKey, insortKey] at h
      injection h with h1 _
      subst h1
      rcases List.mem_cons.mp hd with h2 | h2
      · subst h2; exact keyLE_refl _
      · simp at h2
    · rw [hs] at h
      unfold insortKey at h
      split_ifs at h with hlt
      · injection h with h1 _
        subst h1
        rcases List.mem_cons.mp hd with h2 | h2
        · subst h2; exact keyLE_of_keyLT _ _ hlt
        · exact ih z zs hs d h2
      · injection h with h1 _
        subst h1
        rcases List.mem_cons.mp hd with h2 | h2
        · subst h2; exact keyLE_refl _
        · exact keyLE_trans _ _ _ (keyLE_of_not_keyLT _ _ hlt) (ih z zs hs d h2)

/-! ## Scan lemmas for the HTML variant -/

/-- The cosponsor accumulator after one main-loop iteration. -/
theorem processRow_snd (o : String) (st : Status × List String) (r : HistRow) :
    (processRow o st r).2 = st.2 ++ sponsorNamesOf r.action := rfl

/-- The cosponsor accumulator after one fallback-loop iteration. -/
theorem processPair_snd (st : Status × List String) (p : String × String) :
    (processPair st p).2 = st.2 ++ sponsorNamesOf p.2 := rfl

/-- The main loop body leaves a non-empty introduced date unchanged. -/
theorem processRow_keep_intro (o : String) (st : Status × List String) (r : HistRow)
    (h : st.1.introducedDate ≠ "") :
    (processRow o st r).1.introducedDate = st.1.introducedDate ∧
    (processRow o st r).1.introducedYN = st.1.introducedYN := by
  simp [processRow_eq, introStep_unfired (effDate r) r.action st.1 h]

/-- The main loop body sets the introduced fields on a match while the
date is empty. -/
theorem processRow_fire_intro (o : String) (st : Status × List String) (r : HistRow)
    (h1 : introMatch r.action = true) (h2 : st.1.introducedDate = "") :
    (processRow o st r).1.introducedYN = "Y" ∧
    (processRow o st r).1.introducedDate = effDate r := by
  simp [processRow_eq, introStep_fired (effDate r) r.action st.1 h1 h2]

/-- The fallback loop body never changes the chamber field. -/
theorem processPair_chamber (st : Status × List String) (p : String × String) :
    (processPair st p).1.chamberIntroduced = st.1.chamberIntroduced := by
  simp [processPair_eq]

/-- The fallback loop body never changes the cosponsor field. -/
theorem processPair_cosField (st : Status × List String) (p : String × String) :
    (processPair st p).1.cosponsor = st.1.cosponsor := by
  simp [processPair_eq]

/-- The fallback loop body leaves a non-empty introduced date
unchanged. -/
theorem processPair_keep_intro (st : Status × List String) (p : String × String)
    (h : st.1.introducedDate ≠ "") :
    (processPair st p).1.introducedDate = st.1.introducedDate ∧
    (processPair st p).1.introducedYN = st.1.introducedYN := by
  simp [processPair_eq, introStep_unfired (pairDate p) p.2 st.1 h]

/-- The main scan never changes the chamber field. -/
theorem scanRows_chamber (o : String) (rows : List HistRow) :
    ∀ st : Status × List String,
      (rows.foldl (processRow o) st).1.chamberIntroduced = st.1.chamberIntroduced := by
  induction rows with
  | nil => intro st; rfl
  | cons r rs ih =>
    intro st
    simp only [List.foldl_cons]
    rw [ih, processRow_chamber]

/-- The fallback scan never changes the chamber field. -/
theorem scanPairs_chamber (ps : List (String × String)) :
    ∀ st : Status × List String,
      (ps.foldl processPair st).1.chamberIntroduced = st.1.chamberIntroduced := by
  induction ps with
  | nil => intro st; rfl
  | cons p ps ih =>
    intro st
    simp only [List.foldl_cons]
    rw [ih, processPair_chamber]

/-- The main scan never changes the cosponsor field. -/
theorem scanRows_cosField (o : String) (rows : List HistRow) :
    ∀ st : Status × List String,
      (rows.foldl (processRow o) st).1.cosponsor = st.1.cosponsor := by
  induction rows with
  | nil => intro st; rfl
  | cons r rs ih =>
    intro st
    simp only [List.foldl_cons]
    rw [ih, processRow_cosField]

/-- The fallback scan never changes the cosponsor field. -/
theorem scanPairs_cosField (ps : List (String × String)) :
    ∀ st : Status × List String,
      (ps.foldl processPair st).1.cosponsor = st.1.cosponsor := by
  induction ps with
  | nil => intro st; rfl
  | cons p ps ih =>
    intro st
    simp only [List.foldl_cons]
    rw [ih, processPair_cosField]

/-- The main scan accumulates exactly the sponsor names of its rows,
in order. -/
theorem scanRows_cos (o : String) (rows : List HistRow) :
    ∀ st : Status × List String,
      (rows.foldl (processRow o) st).2 = st.2 ++ allSponsorNames rows := by
  induction rows with
  | nil => intro st; simp [allSponsorNames]
  | cons r rs ih =>
    intro st
    simp only [List.foldl_cons]
    rw [ih, processRow_snd, allSponsorNames, List.append_assoc]

/-- The fallback scan over the projected pairs accumulates the same
sponsor names again. -/
theorem scanPairs_cos (rows : List HistRow) :
    ∀ st : Status × List String,
      ((rows.map (fun r => (r.dateCell, r.action))).foldl processPair st).2 =
        st.2 ++ allSponsorNames rows := by
  induction rows with
  | nil => intro st; simp [allSponsorNames]
  | cons r rs ih =>
    intro st
    simp only [List.map_cons, List.foldl_cons]
    rw [ih, processPair_snd, allSponsorNames, List.append_assoc]

/-- The fallback scan leaves a non-empty introduced date unchanged. -/
theorem scanPairs_keep_intro (ps : List (String × String)) :
    ∀ st : Status × List String, st.1.introducedDate ≠ "" →
      (ps.foldl processPair st).1.introducedDate = st.1.introducedDate := by
  induction ps with
  | nil => intro st _; rfl
  | cons p ps ih =>
    intro st h
    simp only [List.foldl_cons]
    have e := (processPair_keep_intro st p h).1
    rw [ih _ (by rw [e]; exact h), e]

/-- Preservation through the main scan: the invariant that an empty
dead flag forces an empty dead date, and the five once-set-stays
fields. -/
theorem scanRows_keep (o : String) (ys : List HistRow) :
    ∀ st : Status × List String, (st.1.deadYN = "" → st.1.deadDate = "") →
    (((ys.foldl (processRow o) st).1.deadYN = "" →
        (ys.foldl (processRow o) st).1.deadDate = "") ∧
     (st.1.passedIntroDate ≠ "" →
        (ys.foldl (processRow o) st).1.passedIntroDate = st.1.passedIntroDate) ∧
     (st.1.passedSecondDate ≠ "" →
        (ys.foldl (processRow o) st).1.passedSecondDate = st.1.passedSecondDate) ∧
     (st.1.effectiveDate ≠ "" →
        (ys.foldl (processRow o) st).1.effectiveDate = st.1.effectiveDate) ∧
     (st.1.enactedDate ≠ "" →
        (ys.foldl (processRow o) st).1.enactedDate = st.1.enactedDate) ∧
     (st.1.deadYN ≠ "" →
        (ys.foldl (processRow o) st).1.deadYN = st.1.deadYN ∧
        (ys.foldl (processRow o) st).1.deadDate = st.1.deadDate)) := by
  induction ys with
  | nil =>
    intro st h
    exact ⟨h, fun _ => rfl, fun _ => rfl, fun _ => rfl, fun _ => rfl, fun _ => ⟨rfl, rfl⟩⟩
  | cons y ys ih =>
    intro st h
    simp only [List.foldl_cons]
    obtain ⟨i1, i2, i3, i4, i5, i6⟩ := ih (processRow o st y) (processRow_inv o st y h)
    refine ⟨i1, ?_, ?_, ?_, ?_, ?_⟩
    · intro hne
      have e := processRow_keep_passedIntroDate o st y hne
      rw [i2 (by rw [e]; exact hne), e]
    · intro hne
      have e := processRow_keep_passedSecondDate o st y hne
      rw [i3 (by rw [e]; exact hne), e]
    · intro hne
      have e := processRow_keep_effectiveDate o st y hne
      rw [i4 (by rw [e]; exact hne), e]
    · intro hne
      have e := processRow_keep_enactedDate o st y hne
      rw [i5 (by rw [e]; exact hne), e]
    · intro hne
      obtain ⟨e1, e2⟩ := processRow_keep_dead o st y hne
      have h6 := i6 (by rw [e1]; exact hne)
      exact ⟨by rw [h6.1, e1], by rw [h6.2, e2]⟩

/-! ## Finalisation and de-duplication lemmas -/

@[simp] theorem finalizeCos_keeps_introducedYN (p : Status × List String) :
    (finalizeCos p).introducedYN = p.1.introducedYN := by
  unfold finalizeCos; split_ifs <;> rfl

@[simp] theorem finalizeCos_keeps_introducedDate (p : Status × List String) :
    (finalizeCos p).introducedDate = p.1.introducedDate := by
  unfold finalizeCos; split_ifs <;> rfl

@[simp] theorem finalizeCos_keeps_chamberIntroduced (p : Status × List String) :
    (finalizeCos p).chamberIntroduced = p.1.chamberIntroduced := by
  unfold finalizeCos; split_ifs <;> rfl

@[simp] theorem finalizeCos_keeps_passedIntroYN (p : Status × List String) :
    (finalizeCos p).passedIntroYN = p.1.passedIntroYN := by
  unfold finalizeCos; split_ifs <;> rfl

@[simp] theorem finalizeCos_keeps_passedIntroDate (p : Status × List String) :
    (finalizeCos p).passedIntroDate = p.1.passedIntroDate := by
  unfold finalizeCos; split_ifs <;> rfl

@[simp] theorem finalizeCos_keeps_passedSecondYN (p : Status × List String) :
    (finalizeCos p).passedSecondYN = p.1.passedSecondYN := by
  unfold finalizeCos; split_ifs <;> rfl

@[simp] theorem finalizeCos_keeps_passedSecondDate (p : Status × List String) :
    (finalizeCos p).passedSecondDate = p.1.passedSecondDate := by
  unfold finalizeCos; split_ifs <;> rfl

@[simp] theorem finalizeCos_keeps_effectiveYN (p : Status × List String) :
    (finalizeCos p).effectiveYN = p.1.effectiveYN := by
  unfold finalizeCos; split_ifs <;> rfl

@[simp] theorem finalizeCos_keeps_effectiveDate (p : Status × List String) :
    (finalizeCos p).effectiveDate = p.1.effectiveDate := by
  unfold finalizeCos; split_ifs <;> rfl

@[simp] theorem finalizeCos_keeps_enactedYN (p : Status × List String) :
    (finalizeCos p).enactedYN = p.1.enactedYN := by
  unfold finalizeCos; split_ifs <;> rfl

@[simp] theorem finalizeCos_keeps_enactedDate (p : Status × List String) :
    (finalizeCos p).enactedDate = p.1.enactedDate := by
  unfold finalizeCos; split_ifs <;> rfl

@[simp] theorem finalizeCos_keeps_deadYN (p : Status × List String) :
    (finalizeCos p).deadYN = p.1.deadYN := by
  unfold finalizeCos; split_ifs <;> rfl

@[simp] theorem finalizeCos_keeps_deadDate (p : Status × List String) :
    (finalizeCos p).deadDate = p.1.deadDate := by
  unfold finalizeCos; split_ifs <;> rfl

@[simp] theorem finalizeCos_keeps_chamberDied (p : Status × List String) :
    (finalizeCos p).chamberDied = p.1.chamberDied := by
  unfold finalizeCos; split_ifs <;> rfl

@[simp] theorem finalizeCos_keeps_pendingYN (p : Status × List String) :
    (finalizeCos p).pendingYN = p.1.pendingYN := by
  unfold finalizeCos; split_ifs <;> rfl

@[simp] theorem finalizeCos_keeps_actIdentifier (p : Status × List String) :
    (finalizeCos p).actIdentifier = p.1.actIdentifier := by
  unfold finalizeCos; split_ifs <;> rfl

@[simp] theorem finalizePending_keeps_introducedYN (s : Status) :
    (finalizePending s).introducedYN = s.introducedYN := by
  unfold finalizePending; split_ifs <;> rfl

@[simp] theorem finalizePending_keeps_introducedDate (s : Status) :
    (finalizePending s).introducedDate = s.introducedDate := by
  unfold finalizePending; split_ifs <;> rfl

@[simp] theorem finalizePending_keeps_chamberIntroduced (s : Status) :
    (finalizePending s).chamberIntroduced = s.chamberIntroduced := by
  unfold finalizePending; split_ifs <;> rfl

@[simp] theorem finalizePending_keeps_passedIntroYN (s : Status) :
    (finalizePending s).passedIntroYN = s.passedIntroYN := by
  unfold finalizePending; split_ifs <;> rfl

@[simp] theorem finalizePending_keeps_passedIntroDate (s : Status) :
    (finalizePending s).passedIntroDate = s.passedIntroDate := by
  unfold finalizePending; split_ifs <;> rfl

@[simp] theorem finalizePending_keeps_passedSecondYN (s : Status) :
    (finalizePending s).passedSecondYN = s.passedSecondYN := by
  unfold finalizePending; split_ifs <;> rfl

@[simp] theorem finalizePending_keeps_passedSecondDate (s : Status) :
    (finalizePending s).passedSecondDate = s.passedSecondDate := by
  unfold finalizePending; split_ifs <;> rfl

@[simp] theorem finalizePending_keeps_effectiveYN (s : Status) :
    (finalizePending s).effectiveYN = s.effectiveYN := by
  unfold finalizePending; split_ifs <;> rfl

@[simp] theorem finalizePending_keeps_effectiveDate (s : Status) :
    (finalizePending s).effectiveDate = s.effectiveDate := by
  unfold finalizePending; split_ifs <;> rfl

@[simp] theorem finalizePending_keeps_enactedYN (s : Status) :
    (finalizePending s).enactedYN = s.enactedYN := by
  unfold finalizePending; split_ifs <;> rfl

@[simp] theorem finalizePending_keeps_enactedDate (s : Status) :
    (finalizePending s).enactedDate = s.enactedDate := by
  unfold finalizePending; split_ifs <;> rfl

@[simp] theorem finalizePending_keeps_deadYN (s : Status) :
    (finalizePending s).deadYN = s.deadYN := by
  unfold finalizePending; split_ifs <;> rfl

@[simp] theorem finalizePending_keeps_deadDate (s : Status) :
    (finalizePending s).deadDate = s.deadDate := by
  unfold finalizePending; split_ifs <;> rfl

@[simp] theorem finalizePending_keeps_chamberDied (s : Status) :
    (finalizePending s).chamberDied = s.chamberDied := by
  unfold finalizePending; split_ifs <;> rfl

@[simp] theorem finalizePending_keeps_cosponsor (s : Status) :
    (finalizePending s).cosponsor = s.cosponsor := by
  unfold finalizePending; split_ifs <;> rfl

@[simp] theorem finalizePending_keeps_actIdentifier (s : Status) :
    (finalizePending s).actIdentifier = s.actIdentifier := by
  unfold finalizePending; split_ifs <;> rfl

/-- The cosponsor output of the finalisation step. -/
theorem finalizeCos_cosponsor (p : Status × List String) :
    (finalizeCos p).cosponsor =
      if p.2.isEmpty then p.1.cosponsor
      else String.intercalate ", " (dedupFirst p.2) := by
  unfold finalizeCos; split_ifs <;> rfl

/-- The pending output of the finalisation step. -/
theorem finalizePending_pendingYN (s : Status) :
    (finalizePending s).pendingYN =
      if s.enactedYN ≠ "Y" ∧ s.deadYN ≠ "Y" then "Y" else "N" := by
  unfold finalizePending; split_ifs <;> rfl

/-- De-duplication drops everything already seen. -/
theorem dedupAux_nil_of_mem (ys : List String) :
    ∀ seen, (∀ y ∈ ys, y ∈ seen) → dedupAux seen ys = [] := by
  induction ys with
  | nil => intro seen _; rfl
  | cons y ys ih =>
    intro seen h
    unfold dedupAux
    rw [if_pos (h y (List.mem_cons_self y ys))]
    exact ih seen fun z hz => h z (List.mem_cons_of_mem y hz)

/-- De-duplication of an appended tail that brings nothing new. -/
theorem dedupAux_append (xs : List String) :
    ∀ seen ys, (∀ y ∈ ys, y ∈ seen ∨ y ∈ xs) →
      dedupAux seen (xs ++ ys) = dedupAux seen xs := by
  induction xs with
  | nil =>
    intro seen ys h
    simp only [List.nil_append]
    exact dedupAux_nil_of_mem ys seen fun y hy => (h y hy).resolve_right (by simp)
  | cons x xs ih =>
    intro seen ys h
    simp only [List.cons_append]
    unfold dedupAux
    split_ifs with hx
    · exact ih seen ys fun y hy => by
        rcases h y hy with h1 | h1
        · exact Or.inl h1
        · rcases List.mem_cons.mp h1 with h2 | h2
          · exact Or.inl (h2 ▸ hx)
          · exact Or.inr h2
    · rw [ih (x :: seen) ys fun y hy => by
        rcases h y hy with h1 | h1
        · exact Or.inl (List.mem_cons_of_mem x h1)
        · rcases List.mem_cons.mp h1 with h2 | h2
          · exact Or.inl (h2 ▸ List.mem_cons_self x seen)
          · exact Or.inr h2]

/-- First-seen de-duplication is unchanged when the list is scanned
twice. -/
theorem dedupFirst_append_self (l : List String) :
    dedupFirst (l ++ l) = dedupFirst l := by
  unfold dedupFirst
  exact dedupAux_append l [] l fun y hy => Or.inr hy

/-- The empty-row return of the classifier. -/
theorem parse_bhf_nil (billno : String) :
    parse_bill_history_fields [] billno =
      { initStatus with chamberIntroduced := infer_chamber_from_billno billno,
                        pendingYN := "Y" } := rfl

/-- The classifier on a non-empty row list: scan, conditional fallback
pass, cosponsor finalisation, pending derivation. -/
theorem parse_bhf_cons (r : HistRow) (rs : List HistRow) (billno : String) :
    parse_bill_history_fields (r :: rs) billno =
      finalizePending (finalizeCos
        (if fallbackCond
            ((r :: rs).foldl (processRow (infer_chamber_from_billno billno))
              (initPair (infer_chamber_from_billno billno))).1 then
          ((r :: rs).map (fun x => (x.dateCell, x.action))).foldl processPair
            ((r :: rs).foldl (processRow (infer_chamber_from_billno billno))
              (initPair (infer_chamber_from_billno billno)))
        else
          (r :: rs).foldl (processRow (infer_chamber_from_billno billno))
            (initPair (infer_chamber_from_billno billno)))) := rfl

/-- Every classifier result is a pending-finalised record. -/
theorem parse_bhf_decomp (rows : List HistRow) (billno : String) :
    ∃ s : Status, parse_bill_history_fields rows billno = finalizePending s := by
  cases rows with
  | nil =>
    refine ⟨{ initStatus with chamberIntroduced := infer_chamber_from_billno billno }, ?_⟩
    rw [parse_bhf_nil]
    unfold finalizePending
    rw [if_pos]
    exact ⟨(by decide : ("" : String) ≠ "Y"), (by decide : ("" : String) ≠ "Y")⟩
  | cons r rs => exact ⟨_, parse_bhf_cons r rs billno⟩

/-! ## Claims C4, C10, C3 -/

/-- C4 counterexample: classifying an empty list for bill `HF1` sets
the chamber-where-introduced field, so not every field besides pending
is empty. -/
theorem c4_counterexample :
    (parse_bill_history_fields [] "HF1").pendingYN = "Y" ∧
    (parse_bill_history_fields [] "HF1").chamberIntroduced = "House" ∧
    (parse_bill_history_fields [] "HF1").chamberIntroduced ≠ "" :=
  ⟨rfl, rfl, by decide⟩

/-- C4 (amended): classifying an empty entry list returns, for every
bill number and without raising, a record with pending `Y`, the
chamber-where-introduced field set from the bill-number lead, and
every other field empty. -/
theorem c4_empty_rows (billno : String) :
    (parse_bill_history_fields [] billno).pendingYN = "Y" ∧
    (parse_bill_history_fields [] billno).chamberIntroduced =
      infer_chamber_from_billno billno ∧
    (parse_bill_history_fields [] billno).introducedYN = "" ∧
    (parse_bill_history_fields [] billno).introducedDate = "" ∧
    (parse_bill_history_fields [] billno).effectiveYN = "" ∧
    (parse_bill_history_fields [] billno).effectiveDate = "" ∧
    (parse_bill_history_fields [] billno).passedIntroYN = "" ∧
    (parse_bill_history_fields [] billno).passedIntroDate = "" ∧
    (parse_bill_history_fields [] billno).passedSecondYN = "" ∧
    (parse_bill_history_fields [] billno).passedSecondDate = "" ∧
    (parse_bill_history_fields [] billno).deadYN = "" ∧
    (parse_bill_history_fields [] billno).chamberDied = "" ∧
    (parse_bill_history_fields [] billno).deadDate = "" ∧
    (parse_bill_history_fields [] billno).enactedYN = "" ∧
    (parse_bill_history_fields [] billno).actIdentifier = "" ∧
    (parse_bill_history_fields [] billno).enactedDate = "" ∧
    (parse_bill_history_fields [] billno).cosponsor = "" :=
  ⟨rfl, rfl, rfl, rfl, rfl, rfl, rfl, rfl, rfl, rfl, rfl, rfl, rfl, rfl, rfl, rfl, rfl⟩

/-- C10: the chamber-where-introduced output equals the chamber
inferred from the bill-number lead for every row list, and is
non-empty whenever the lead is recognised. -/
theorem c10_chamber_from_lead (rows : List HistRow) (billno : String) :
    (parse_bill_history_fields rows billno).chamberIntroduced =
      infer_chamber_from_billno billno ∧
    (recognizedLead billno = true →
      (parse_bill_history_fields rows billno).chamberIntroduced ≠ "") := by
  have hmain : (parse_bill_history_fields rows billno).chamberIntroduced =
      infer_chamber_from_billno billno := by
    cases rows with
    | nil => rfl
    | cons r rs =>
      rw [parse_bhf_cons, finalizePending_keeps_chamberIntroduced,
          finalizeCos_keeps_chamberIntroduced]
      split_ifs
      · rw [scanPairs_chamber, scanRows_chamber]; rfl
      · rw [scanRows_chamber]; rfl
  refine ⟨hmain, fun hrec => ?_⟩
  rw [hmain]
  unfold recognizedLead at hrec
  simp only [infer_chamber_from_billno]
  split_ifs with h1 h2
  · decide
  · decide
  · exfalso
    simp only [List.any_cons, List.any_nil, Bool.or_eq_true, Bool.or_eq_false_iff] at hrec h1 h2
    tauto

/-- C10 witness: bill `HF1` has a recognised lead and gets a non-empty
chamber even with no history rows. -/
theorem c10_witness :
    recognizedLead "HF1" = true ∧
    (parse_bill_history_fields [] "HF1").chamberIntroduced =
      infer_chamber_from_billno "HF1" ∧
    (parse_bill_history_fields [] "HF1").chamberIntroduced ≠ "" :=
  ⟨rfl, (c10_chamber_from_lead [] "HF1").1, (c10_chamber_from_lead [] "HF1").2 rfl⟩

/-- C3: the pending flag is `Y` exactly when neither the enacted flag
nor the dead flag is `Y`; a signed bill is not pending, and a
withdrawn bill with no enacted entry has its dead status set and is
not pending. -/
theorem c3_pending_iff :
    (∀ (rows : List HistRow) (billno : String),
       ((parse_bill_history_fields rows billno).pendingYN = "Y" ↔
        ((parse_bill_history_fields rows billno).enactedYN ≠ "Y" ∧
         (parse_bill_history_fields rows billno).deadYN ≠ "Y"))) ∧
    (parse_bill_history_fields [c3Row1] "HF1").enactedYN = "Y" ∧
    (parse_bill_history_fields [c3Row1] "HF1").enactedDate = "5/1/2023" ∧
    (parse_bill_history_fields [c3Row1] "HF1").pendingYN = "N" ∧
    (parse_bill_history_fields [c3Row2] "HF1").deadYN = "Y" ∧
    (parse_bill_history_fields [c3Row2] "HF1").deadDate = "4/1/2023" ∧
    (parse_bill_history_fields [c3Row2] "HF1").enactedYN ≠ "Y" ∧
    (parse_bill_history_fields [c3Row2] "HF1").pendingYN = "N" := by
  refine ⟨?_, rfl, rfl, rfl, rfl, rfl, by decide, rfl⟩
  intro rows billno
  obtain ⟨s, hs⟩ := parse_bhf_decomp rows billno
  rw [hs, finalizePending_pendingYN, finalizePending_keeps_enactedYN,
      finalizePending_keeps_deadYN]
  split_ifs with h
  · exact iff_of_true rfl h
  · exact iff_of_false (by decide) h

/-! ## Claims C8 and C2 -/

/-- Cosponsor finalisation yields the joined de-duplication of the
collected names, for an accumulator holding them once or twice. -/
theorem finalizeCos_of_names (l : List String) (p : Status × List String)
    (hacc : p.2 = l ∨ p.2 = l ++ l) (hfld : p.1.cosponsor = "") :
    (finalizeCos p).cosponsor = String.intercalate ", " (dedupFirst l) := by
  rw [finalizeCos_cosponsor]
  by_cases hl : l = []
  · subst hl
    rcases hacc with h | h <;> simp [h, hfld, dedupFirst, dedupAux]
    all_goals rfl
  · rcases hacc with h | h
    · rw [h, if_neg (by simpa [List.isEmpty_iff] using hl)]
    · rw [h, if_neg (by simp [List.isEmpty_iff, hl]), dedupFirst_append_self]

/-- C8 (amended, Iowa variant): the cosponsor output is the
comma-space join of the first-seen de-duplication of all names
captured by the sponsors-added pattern and split on semicolons and
commas, across the whole scan. -/
theorem c8_cosponsors (rows : List HistRow) (billno : String) :
    (parse_bill_history_fields rows billno).cosponsor =
      String.intercalate ", " (dedupFirst (allSponsorNames rows)) := by
  cases rows with
  | nil => rfl
  | cons r rs =>
    rw [parse_bhf_cons, finalizePending_keeps_cosponsor]
    apply finalizeCos_of_names
    · split_ifs with hf
      · right
        rw [scanPairs_cos (r :: rs)
              ((r :: rs).foldl (processRow (infer_chamber_from_billno billno))
                (initPair (infer_chamber_from_billno billno))),
            scanRows_cos (infer_chamber_from_billno billno) (r :: rs)
              (initPair (infer_chamber_from_billno billno))]
        simp [initPair]
      · left
        rw [scanRows_cos (infer_chamber_from_billno billno) (r :: rs)
              (initPair (infer_chamber_from_billno billno))]
        simp [initPair]
    · split_ifs with hf
      · rw [scanPairs_cosField, scanRows_cosField]; rfl
      · rw [scanRows_cosField]; rfl

/-- C8 counterexample (Illinois variant): a line naming two
co-sponsors separated by a semicolon contributes only the first name;
the split-on-separators reading of the specification would keep
both. -/
theorem c8_counterexample :
    collect_cosponsors_from_actions [c8Line] = "Rep. Ann Doe" ∧
    spec_cosponsor_names [c8Line] = ["Rep. Ann Doe", "Rep. Bob Roe"] ∧
    String.intercalate "; " (spec_cosponsor_names [c8Line]) ≠ "Rep. Ann Doe" :=
  ⟨rfl, rfl, by decide⟩

/-- C2 (amended, Iowa variant): in the scan of
`parse_bill_history_fields`, each of the five guarded fields, once
set to a non-empty value by a prefix of the rows, is left unchanged by
all later rows. -/
theorem c2_first_match_wins (origin : String) (xs ys : List HistRow) :
    ((xs.foldl (processRow origin) (initPair origin)).1.passedIntroDate ≠ "" →
       ((xs ++ ys).foldl (processRow origin) (initPair origin)).1.passedIntroDate =
         (xs.foldl (processRow origin) (initPair origin)).1.passedIntroDate) ∧
    ((xs.foldl (processRow origin) (initPair origin)).1.passedSecondDate ≠ "" →
       ((xs ++ ys).foldl (processRow origin) (initPair origin)).1.passedSecondDate =
         (xs.foldl (processRow origin) (initPair origin)).1.passedSecondDate) ∧
    ((xs.foldl (processRow origin) (initPair origin)).1.effectiveDate ≠ "" →
       ((xs ++ ys).foldl (processRow origin) (initPair origin)).1.effectiveDate =
         (xs.foldl (processRow origin) (initPair origin)).1.effectiveDate) ∧
    ((xs.foldl (processRow origin) (initPair origin)).1.enactedDate ≠ "" →
       ((xs ++ ys).foldl (processRow origin) (initPair origin)).1.enactedDate =
         (xs.foldl (processRow origin) (initPair origin)).1.enactedDate) ∧
    ((xs.foldl (processRow origin) (initPair origin)).1.deadDate ≠ "" →
       ((xs ++ ys).foldl (processRow origin) (initPair origin)).1.deadDate =
         (xs.foldl (processRow origin) (initPair origin)).1.deadDate) := by
  have hinv0 : (initPair origin).1.deadYN = "" → (initPair origin).1.deadDate = "" :=
    fun _ => rfl
  have hinvA := (scanRows_keep origin xs (initPair origin) hinv0).1
  obtain ⟨_, i2, i3, i4, i5, i6⟩ :=
    scanRows_keep origin ys (xs.foldl (processRow origin) (initPair origin)) hinvA
  rw [List.foldl_append]
  refine ⟨i2, i3, i4, i5, fun hdd => ?_⟩
  have hyn : (xs.foldl (processRow origin) (initPair origin)).1.deadYN ≠ "" :=
    fun h0 => hdd (hinvA h0)
  exact (i6 hyn).2

/-- C2 witness: a prefix setting all five fields, followed by a row
matching every predicate, leaves every field unchanged. -/
theorem c2_witness :
    ((c2Xs.foldl (processRow "House") (initPair "House")).1.passedIntroDate ≠ "") ∧
    (((c2Xs ++ c2Ys).foldl (processRow "House") (initPair "House")).1.passedIntroDate =
      (c2Xs.foldl (processRow "House") (initPair "House")).1.passedIntroDate) ∧
    ((c2Xs.foldl (processRow "House") (initPair "House")).1.passedSecondDate ≠ "") ∧
    (((c2Xs ++ c2Ys).foldl (processRow "House") (initPair "House")).1.passedSecondDate =
      (c2Xs.foldl (processRow "House") (initPair "House")).1.passedSecondDate) ∧
    ((c2Xs.foldl (processRow "House") (initPair "House")).1.effectiveDate ≠ "") ∧
    (((c2Xs ++ c2Ys).foldl (processRow "House") (initPair "House")).1.effectiveDate =
      (c2Xs.foldl (processRow "House") (initPair "House")).1.effectiveDate) ∧
    ((c2Xs.foldl (processRow "House") (initPair "House")).1.enactedDate ≠ "") ∧
    (((c2Xs ++ c2Ys).foldl (processRow "House") (initPair "House")).1.enactedDate =
      (c2Xs.foldl (processRow "House") (initPair "House")).1.enactedDate) ∧
    ((c2Xs.foldl (processRow "House") (initPair "House")).1.deadDate ≠ "") ∧
    (((c2Xs ++ c2Ys).foldl (processRow "House") (initPair "House")).1.deadDate =
      (c2Xs.foldl (processRow "House") (initPair "House")).1.deadDate) :=
  ⟨by decide, (c2_first_match_wins "House" c2Xs c2Ys).1 (by decide),
   by decide, (c2_first_match_wins "House" c2Xs c2Ys).2.1 (by decide),
   by decide, (c2_first_match_wins "House" c2Xs c2Ys).2.2.1 (by decide),
   by decide, (c2_first_match_wins "House" c2Xs c2Ys).2.2.2.1 (by decide),
   by decide, (c2_first_match_wins "House" c2Xs c2Ys).2.2.2.2 (by decide)⟩

/-- C2 counterexample: the cited Illinois scan overwrites a set dead
date on a later match, and the cited Ohio loop overwrites a set
effective date, so first-match-wins fails there as stated. -/
theorem c2_counterexample :
    (parse_actions_for_dates [c2Line1] "House").deadDate = "1/1/2024" ∧
    (parse_actions_for_dates [c2Line1, c2Line2] "House").deadDate = "2/1/2024" ∧
    (("1/1/2024" : String) ≠ "2/1/2024") ∧
    (ohio_bill_status [("1/1/2024", "", "Effective 90 days")] "HB").effectiveDate =
      "1/1/2024" ∧
    (ohio_bill_status [("1/1/2024", "", "Effective 90 days"),
        ("2/1/2024", "", "Effective immediately")] "HB").effectiveDate = "2/1/2024" :=
  ⟨rfl, rfl, by decide, rfl, rfl⟩

/-! ## Claims C1 and C9 -/

/-- The introduced output of the Playwright classifier: the head of
the collected dates sorted by the slash key, or empty. -/
theorem parsePW_introducedDate (rows : List PWRow) (billno : String) :
    (parse_dates_with_playwright rows billno).introducedDate =
      (if (introDatesOf rows).isEmpty then ""
       else
         match sortByKey ((introDatesOf rows).filter (· ≠ "")) with
         | [] => ""
         | d :: _ => d) := by
  have hID : (rows.foldl (pwStep (infer_chamber_from_billno billno))
      initPWState).introDates = introDatesOf rows := by
    have := pwScan_introDates (infer_chamber_from_billno billno) rows initPWState
    simpa [initPWState] using this
  simp only [parse_dates_with_playwright, hID]

/-- Collected introduced dates survive the non-empty filter. -/
theorem introDatesOf_filter (rows : List PWRow) :
    (introDatesOf rows).filter (· ≠ "") = introDatesOf rows := by
  apply List.filter_eq_self.mpr
  intro a ha
  simpa using mem_introDatesOf_ne rows a ha

/-- C1: when every collected introduced date parses as a slash date,
the Playwright classifier returns one of the collected dates, and its
(year, month, day) key is at most the key of every collected date:
the calendar-earliest wins, not document order. -/
theorem c1_introduced_earliest (rows : List PWRow) (billno : String)
    (hall : ∀ d ∈ introDatesOf rows, (mdy_keyOpt d).isSome = true)
    (hne : introDatesOf rows ≠ []) :
    (parse_dates_with_playwright rows billno).introducedDate ∈ introDatesOf rows ∧
    ∃ kr, mdy_keyOpt ((parse_dates_with_playwright rows billno).introducedDate) = some kr ∧
      ∀ d ∈ introDatesOf rows, ∀ kd, mdy_keyOpt d = some kd → keyLE kr kd = true := by
  rw [parsePW_introducedDate, if_neg (by simpa [List.isEmpty_iff] using hne),
      introDatesOf_filter]
  rcases hs : sortByKey (introDatesOf rows) with _ | ⟨x, xs⟩
  · exact absurd ((sortByKey_eq_nil _).mp hs) hne
  · have hmem : x ∈ introDatesOf rows :=
      (mem_sortByKey x _).mp (hs ▸ List.mem_cons_self x xs)
    obtain ⟨kr, hkr⟩ := Option.isSome_iff_exists.mp (hall x hmem)
    have e1 : mdy_key x = kr := by rw [mdy_key, hkr]; rfl
    refine ⟨hmem, kr, hkr, ?_⟩
    intro d hd kd hkd
    have hmin := sortByKey_head_min _ x xs hs d hd
    have e2 : mdy_key d = kd := by rw [mdy_key, hkd]; rfl
    rwa [e1, e2] at hmin

/-- C1 witness: two introduced rows dated 3/1/2023 then 1/15/2023 in
document order yield 1/15/2023. -/
theorem c1_witness :
    (∀ d ∈ introDatesOf [c1Row1, c1Row2], (mdy_keyOpt d).isSome = true) ∧
    introDatesOf [c1Row1, c1Row2] ≠ [] ∧
    (parse_dates_with_playwright [c1Row1, c1Row2] "HF1").introducedDate ∈
      introDatesOf [c1Row1, c1Row2] ∧
    (parse_dates_with_playwright [c1Row1, c1Row2] "HF1").introducedDate = "1/15/2023" :=
  ⟨by decide, by decide,
   (c1_introduced_earliest [c1Row1, c1Row2] "HF1" (by decide) (by decide)).1, rfl⟩

/-- C9: a date that is not of the slash form is keyed with the
sentinel (9999, 12, 31); whenever some collected introduced date
parses below the sentinel, the selected date also parses below the
sentinel, so a slash-form date beats every non-slash-form date
regardless of calendar order. -/
theorem c9_slash_key_priority :
    (∀ d : String, mdy_keyOpt d = none → mdy_key d = ((9999 : Int), (12 : Int), (31 : Int))) ∧
    mdy_key "April 15, 2023" = ((9999 : Int), (12 : Int), (31 : Int)) ∧
    (∀ (rows : List PWRow) (billno : String),
      (∃ d ∈ introDatesOf rows, ∃ k, mdy_keyOpt d = some k ∧
         keyLT k ((9999 : Int), (12 : Int), (31 : Int)) = true) →
      ∃ kr, mdy_keyOpt ((parse_dates_with_playwright rows billno).introducedDate) = some kr ∧
        keyLT kr ((9999 : Int), (12 : Int), (31 : Int)) = true) := by
  refine ⟨?_, by decide, ?_⟩
  · intro d h; rw [mdy_key, h]; rfl
  · rintro rows billno ⟨d0, hd0, k0, hk0, hk0lt⟩
    have hne : introDatesOf rows ≠ [] := by
      intro h0; rw [h0] at hd0; cases hd0
    rw [parsePW_introducedDate, if_neg (by simpa [List.isEmpty_iff] using hne),
        introDatesOf_filter]
    rcases hs : sortByKey (introDatesOf rows) with _ | ⟨x, xs⟩
    · exact absurd ((sortByKey_eq_nil _).mp hs) hne
    · have hmin := sortByKey_head_min _ x xs hs d0 hd0
      have e0 : mdy_key d0 = k0 := by rw [mdy_key, hk0]; rfl
      rw [e0] at hmin
      have hxlt : keyLT (mdy_key x) ((9999 : Int), (12 : Int), (31 : Int)) = true :=
        keyLE_keyLT_trans _ _ _ hmin hk0lt
      rcases hx : mdy_keyOpt x with _ | kx
      · exfalso
        have : mdy_key x = ((9999 : Int), (12 : Int), (31 : Int)) := by rw [mdy_key, hx]; rfl
        rw [this] at hxlt
        rw [keyLT_irrefl] at hxlt
        cases hxlt
      · have ex : mdy_key x = kx := by rw [mdy_key, hx]; rfl
        exact ⟨kx, rfl, by rwa [ex] at hxlt⟩

/-- C9 witness: with intro dates April 15, 2023 and 6/1/2023 the
slash-form 6/1/2023 is selected although it is calendar-later. -/
theorem c9_witness :
    ("6/1/2023" ∈ introDatesOf [c9Row1, c9Row2] ∧
     mdy_keyOpt "6/1/2023" = some ((2023 : Int), (6 : Int), (1 : Int)) ∧
     keyLT ((2023 : Int), (6 : Int), (1 : Int)) ((9999 : Int), (12 : Int), (31 : Int)) = true) ∧
    (∃ kr, mdy_keyOpt ((parse_dates_with_playwright [c9Row1, c9Row2] "HF2").introducedDate) =
        some kr ∧ keyLT kr ((9999 : Int), (12 : Int), (31 : Int)) = true) ∧
    (parse_dates_with_playwright [c9Row1, c9Row2] "HF2").introducedDate = "6/1/2023" ∧
    mdy_key "April 15, 2023" = ((9999 : Int), (12 : Int), (31 : Int)) :=
  ⟨⟨by decide, by decide, by decide⟩,
   c9_slash_key_priority.2.2 [c9Row1, c9Row2] "HF2"
     ⟨"6/1/2023", by decide, ((2023 : Int), (6 : Int), (1 : Int)), by decide, by decide⟩,
   rfl, by decide⟩

/-! ## Claim C5 -/

/-- C5 counterexample: with origin House, a second `Passed House`
entry lands in the second-chamber bucket although its chamber equals
the origin and no entry names the Senate; even the claim's
single-entry example fails, since the fallback pass re-processes the
entry into the second-chamber bucket. -/
theorem c5_counterexample :
    (parse_bill_history_fields [c5Row1, c5Row2] "HF1").passedIntroDate = "2/1/2023" ∧
    (parse_bill_history_fields [c5Row1, c5Row2] "HF1").passedSecondDate = "2/5/2023" ∧
    passedSenateMatch c5Row1.action = false ∧
    passedSenateMatch c5Row2.action = false ∧
    passedHouseMatch c5Row2.action = true ∧
    infer_chamber_from_billno "HF1" = "House" ∧
    (parse_bill_history_fields [c5Row1] "HF1").passedIntroDate = "2/1/2023" ∧
    (parse_bill_history_fields [c5Row1] "HF1").passedSecondDate = "2/1/2023" :=
  ⟨rfl, rfl, rfl, rfl, rfl, rfl, rfl, rfl⟩

/-- C5 (amended): a passage match goes to the origin bucket when the
named chamber equals the origin and that bucket is still unset, and
otherwise falls to the second-chamber bucket when that one is unset;
with an empty origin the origin bucket is never written. -/
theorem c5_passage_routing :
    (∀ (origin : String) (st : Status × List String) (r : HistRow),
       passedHouseMatch r.action = true → passedSenateMatch r.action = false →
       ((origin = "House" ∧ st.1.passedIntroDate = "" →
          (processRow origin st r).1.passedIntroYN = "Y" ∧
          (processRow origin st r).1.passedIntroDate = effDate r ∧
          (processRow origin st r).1.passedSecondDate = st.1.passedSecondDate) ∧
        (¬(origin = "House" ∧ st.1.passedIntroDate = "") → st.1.passedSecondDate = "" →
          (processRow origin st r).1.passedSecondYN = "Y" ∧
          (processRow origin st r).1.passedSecondDate = effDate r ∧
          (processRow origin st r).1.passedIntroDate = st.1.passedIntroDate))) ∧
    (∀ (origin : String) (st : Status × List String) (r : HistRow),
       passedSenateMatch r.action = true → passedHouseMatch r.action = false →
       ((origin = "Senate" ∧ st.1.passedIntroDate = "" →
          (processRow origin st r).1.passedIntroYN = "Y" ∧
          (processRow origin st r).1.passedIntroDate = effDate r ∧
          (processRow origin st r).1.passedSecondDate = st.1.passedSecondDate) ∧
        (¬(origin = "Senate" ∧ st.1.passedIntroDate = "") → st.1.passedSecondDate = "" →
          (processRow origin st r).1.passedSecondYN = "Y" ∧
          (processRow origin st r).1.passedSecondDate = effDate r ∧
          (processRow origin st r).1.passedIntroDate = st.1.passedIntroDate))) ∧
    (∀ (st : Status × List String) (r : HistRow),
       (processRow "" st r).1.passedIntroDate = st.1.passedIntroDate ∧
       (processRow "" st r).1.passedIntroYN = st.1.passedIntroYN) := by
  refine ⟨?_, ?_, ?_⟩
  · intro origin st r hH hS
    constructor
    · rintro ⟨ho, hint⟩
      simp only [processRow_eq]
      rw [passedHStep_firedIntro, passedSStep_skip]
      · exact ⟨by simp, by simp, by simp⟩
      · exact hS
      · exact hH
      · exact ho
      · simp [hint]
    · intro hno hsec
      simp only [processRow_eq]
      rw [passedHStep_firedSecond, passedSStep_skip]
      · exact ⟨by simp, by simp, by simp⟩
      · exact hS
      · exact hH
      · simpa using hno
      · simpa using hsec
  · intro origin st r hS hH
    constructor
    · rintro ⟨ho, hint⟩
      simp only [processRow_eq]
      rw [passedHStep_skip _ _ _ _ hH, passedSStep_firedIntro]
      · exact ⟨by simp, by simp, by simp⟩
      · exact hS
      · exact ho
      · simp [hint]
    · intro hno hsec
      simp only [processRow_eq]
      rw [passedHStep_skip _ _ _ _ hH, passedSStep_firedSecond]
      · exact ⟨by simp, by simp, by simp⟩
      · exact hS
      · simpa using hno
      · simpa using hsec
  · intro st r
    simp only [processRow_eq]
    constructor
    · rw [deadStep_keeps_passedIntroDate, effectiveStep_keeps_passedIntroDate,
          enactedStep_keeps_passedIntroDate,
          (passedSStep_keepIntroOfNe "" _ _ _ (by decide)).1,
          (passedHStep_keepIntroOfNe "" _ _ _ (by decide)).1,
          introStep_keeps_passedIntroDate]
    · rw [deadStep_keeps_passedIntroYN, effectiveStep_keeps_passedIntroYN,
          enactedStep_keeps_passedIntroYN,
          (passedSStep_keepIntroOfNe "" _ _ _ (by decide)).2,
          (passedHStep_keepIntroOfNe "" _ _ _ (by decide)).2,
          introStep_keeps_passedIntroYN]

/-- C5 witness: the routing theorem applied to the single-entry
example with origin House. -/
theorem c5_witness :
    passedHouseMatch c5Row1.action = true ∧
    passedSenateMatch c5Row1.action = false ∧
    ("House" = "House" ∧ (initPair "House").1.passedIntroDate = "") ∧
    ((processRow "House" (initPair "House") c5Row1).1.passedIntroYN = "Y" ∧
     (processRow "House" (initPair "House") c5Row1).1.passedIntroDate = effDate c5Row1 ∧
     (processRow "House" (initPair "House") c5Row1).1.passedSecondDate =
       (initPair "House").1.passedSecondDate) :=
  ⟨rfl, rfl, ⟨rfl, rfl⟩,
   (c5_passage_routing.1 "House" (initPair "House") c5Row1 rfl rfl).1 ⟨rfl, rfl⟩⟩

/-! ## Claims C6 and C7 -/

/-- C6: for a row with a blank date cell, a hyperlink-recovered date
takes priority, then a literal date in the row text; the classifier
uses the recovered date for the field the row matches. -/
theorem c6_date_recovery (r : HistRow) (billno : String) (hdc : r.dateCell = "") :
    (∀ d, dateFromLinks r.hrefs = some d → effDate r = d) ∧
    (dateFromLinks r.hrefs = none →
       ∀ l, firstDateLiteral r.rowText = some l → effDate r = l) ∧
    (dateFromLinks r.hrefs = none → firstDateLiteral r.rowText = none → effDate r = "") ∧
    (introMatch r.action = true → effDate r ≠ "" →
       (parse_bill_history_fields [r] billno).introducedYN = "Y" ∧
       (parse_bill_history_fields [r] billno).introducedDate = effDate r) := by
  refine ⟨?_, ?_, ?_, ?_⟩
  · intro d hd
    unfold effDate
    rw [if_neg (by simp [hdc]), hd]
  · intro hn l hl
    unfold effDate
    rw [if_neg (by simp [hdc]), hn, hl]
  · intro hn hl
    unfold effDate
    rw [if_neg (by simp [hdc]), hn, hl]
  · intro him hne
    have hfire := processRow_fire_intro (infer_chamber_from_billno billno)
      (initPair (infer_chamber_from_billno billno)) r him rfl
    rw [parse_bhf_cons]
    rw [finalizePending_keeps_introducedYN, finalizePending_keeps_introducedDate,
        finalizeCos_keeps_introducedYN, finalizeCos_keeps_introducedDate]
    have hfold : ([r].foldl (processRow (infer_chamber_from_billno billno))
        (initPair (infer_chamber_from_billno billno))) =
        processRow (infer_chamber_from_billno billno)
          (initPair (infer_chamber_from_billno billno)) r := rfl
    split_ifs with hf
    · have hkeep := processPair_keep_intro
        (processRow (infer_chamber_from_billno billno)
          (initPair (infer_chamber_from_billno billno)) r)
        (r.dateCell, r.action) (by rw [hfire.2]; exact hne)
      have hpair : (([r].map fun x => (x.dateCell, x.action)).foldl processPair
          (processRow (infer_chamber_from_billno billno)
            (initPair (infer_chamber_from_billno billno)) r)) =
          processPair (processRow (infer_chamber_from_billno billno)
            (initPair (infer_chamber_from_billno billno)) r) (r.dateCell, r.action) := rfl
      rw [hfold, hpair, hkeep.2, hkeep.1, hfire.1, hfire.2]
      exact ⟨rfl, rfl⟩
    · rw [hfold, hfire.1, hfire.2]
      exact ⟨rfl, rfl⟩

/-- C6 witness: a blank-date row whose anchor carries
`?hdate=20230415` recovers 4/15/2023 with no zero padding, and the
classifier records it as the introduced date. -/
theorem c6_witness :
    c6Row.dateCell = "" ∧
    dateFromLinks c6Row.hrefs = some "4/15/2023" ∧
    firstDateLiteral c6Row.rowText = none ∧
    effDate c6Row = "4/15/2023" ∧
    introMatch c6Row.action = true ∧
    (parse_bill_history_fields [c6Row] "HF1").introducedDate = "4/15/2023" :=
  ⟨rfl, rfl, rfl,
   (c6_date_recovery c6Row "HF1" rfl).1 "4/15/2023" rfl,
   rfl,
   by
    have h := ((c6_date_recovery c6Row "HF1" rfl).2.2.2 rfl (by decide)).2
    rwa [(c6_date_recovery c6Row "HF1" rfl).1 "4/15/2023" rfl] at h⟩

/-- C7: an entry with no recoverable date contributes an empty date,
is still tested against every predicate (setting the matched field's
flag with an empty date), and the scan of the remaining rows
continues. -/
theorem c7_unrecoverable_entry (origin : String) (st : Status × List String)
    (r : HistRow) (rest : List HistRow) (hu : unrecoverable r = true) :
    effDate r = "" ∧
    ((r :: rest).foldl (processRow origin) st =
       rest.foldl (processRow origin) (processRow origin st r)) ∧
    (introMatch r.action = true → st.1.introducedDate = "" →
       (processRow origin st r).1.introducedYN = "Y" ∧
       (processRow origin st r).1.introducedDate = "") ∧
    (signedGovMatch r.action = true → st.1.enactedDate = "" →
       (processRow origin st r).1.enactedYN = "Y" ∧
       (processRow origin st r).1.enactedDate = "") ∧
    (effectiveMatch r.action = true → st.1.effectiveDate = "" →
       (processRow origin st r).1.effectiveYN = "Y" ∧
       (processRow origin st r).1.effectiveDate = "") ∧
    ((withdrawnSearch r.action).isSome = true → st.1.deadYN = "" →
       (processRow origin st r).1.deadYN = "Y" ∧
       (processRow origin st r).1.deadDate = "") ∧
    (passedHouseMatch r.action = true → origin = "House" → st.1.passedIntroDate = "" →
       (processRow origin st r).1.passedIntroYN = "Y" ∧
       (processRow origin st r).1.passedIntroDate = "") := by
  obtain ⟨⟨⟨h1, h2⟩, h3⟩, h4⟩ :
      ((r.dateCell = "" ∧ dateFromLinks r.hrefs = none) ∧
        firstDateLiteral r.rowText = none) ∧ firstDateLiteral r.action = none := by
    simpa [unrecoverable] using hu
  have heff : effDate r = "" := by
    unfold effDate
    rw [if_neg (by simp [h1]), h2, h3]
  refine ⟨heff, rfl, ?_, ?_, ?_, ?_, ?_⟩
  · intro hm hempty
    have h := processRow_fire_intro origin st r hm hempty
    exact ⟨h.1, by rw [h.2, heff]⟩
  · intro hm hempty
    simp only [processRow_eq]
    rw [enactedStep_fired]
    · constructor
      · simp
      · simp [heff]
    · exact hm
    · simp [hempty]
  · intro hm hempty
    simp only [processRow_eq]
    rw [effectiveStep_fired]
    · constructor
      · simp
      · simp [heff]
    · exact hm
    · simp [hempty]
  · intro hm hempty
    obtain ⟨g, hg⟩ := Option.isSome_iff_exists.mp hm
    simp only [processRow_eq]
    rw [deadStep_fired origin _ _ _ g hg]
    · constructor
      · simp
      · simp [heff]
    · simp [hempty]
  · intro hm ho hempty
    subst ho
    simp only [processRow_eq]
    rw [passedHStep_firedIntro]
    · constructor
      · rw [deadStep_keeps_passedIntroYN, effectiveStep_keeps_passedIntroYN,
            enactedStep_keeps_passedIntroYN,
            (passedSStep_keepIntroOfNe "House" _ _ _ (by decide)).2]
      · rw [deadStep_keeps_passedIntroDate, effectiveStep_keeps_passedIntroDate,
            enactedStep_keeps_passedIntroDate,
            (passedSStep_keepIntroOfNe "House" _ _ _ (by decide)).1, heff]
    · exact hm
    · rfl
    · simp [hempty]

/-- C7 witness: an introduced row with no recoverable date sets the
introduced flag with an empty date. -/
theorem c7_witness :
    unrecoverable c7Row = true ∧
    introMatch c7Row.action = true ∧
    (initPair "House").1.introducedDate = "" ∧
    effDate c7Row = "" ∧
    (processRow "House" (initPair "House") c7Row).1.introducedYN = "Y" ∧
    (processRow "House" (initPair "House") c7Row).1.introducedDate = "" :=
  ⟨rfl, rfl, rfl,
   (c7_unrecoverable_entry "House" (initPair "House") c7Row [] rfl).1,
   ((c7_unrecoverable_entry "House" (initPair "House") c7Row [] rfl).2.2.1 rfl rfl).1,
   ((c7_unrecoverable_entry "House" (initPair "House") c7Row [] rfl).2.2.1 rfl rfl).2⟩

/-- C3 witness: the pending equivalence at the empty history of bill
`HF1`. -/
theorem c3_witness :
    ((parse_bill_history_fields [] "HF1").pendingYN = "Y" ↔
      ((parse_bill_history_fields [] "HF1").enactedYN ≠ "Y" ∧
       (parse_bill_history_fields [] "HF1").deadYN ≠ "Y")) :=
  c3_pending_iff.1 [] "HF1"

/-- C4 witness: the amended empty-list result at bill `SF2`. -/
theorem c4_witness :
    (parse_bill_history_fields [] "SF2").pendingYN = "Y" ∧
    (parse_bill_history_fields [] "SF2").chamberIntroduced =
      infer_chamber_from_billno "SF2" ∧
    (parse_bill_history_fields [] "SF2").introducedYN = "" ∧
    (parse_bill_history_fields [] "SF2").introducedDate = "" ∧
    (parse_bill_history_fields [] "SF2").effectiveYN = "" ∧
    (parse_bill_history_fields [] "SF2").effectiveDate = "" ∧
    (parse_bill_history_fields [] "SF2").passedIntroYN = "" ∧
    (parse_bill_history_fields [] "SF2").passedIntroDate = "" ∧
    (parse_bill_history_fields [] "SF2").passedSecondYN = "" ∧
    (parse_bill_history_fields [] "SF2").passedSecondDate = "" ∧
    (parse_bill_history_fields [] "SF2").deadYN = "" ∧
    (parse_bill_history_fields [] "SF2").chamberDied = "" ∧
    (parse_bill_history_fields [] "SF2").deadDate = "" ∧
    (parse_bill_history_fields [] "SF2").enactedYN = "" ∧
    (parse_bill_history_fields [] "SF2").actIdentifier = "" ∧
    (parse_bill_history_fields [] "SF2").enactedDate = "" ∧
    (parse_bill_history_fields [] "SF2").cosponsor = "" :=
  c4_empty_rows "SF2"

/-- C8 witness: a sponsors-added row naming `Smith; Jones` yields the
joined de-duplicated split. -/
theorem c8_witness :
    (parse_bill_history_fields [c8Row] "HF1").cosponsor =
      String.intercalate ", " (dedupFirst (allSponsorNames [c8Row])) ∧
    (parse_bill_history_fields [c8Row] "HF1").cosponsor = "Smith, Jones" :=
  ⟨c8_cosponsors [c8Row] "HF1", rfl⟩

end LegiScrape
